import Mathlib

/-!
Verification development for the NBA game-results dashboard (`src/script.py`).

The script is a pandas/streamlit program.  We shallowly embed the parts of it
that carry the logic:

* `load` embeds `load_data` (read CSV as strings, rename columns, coerce
  types, drop rows missing mandatory fields, derive the `type` column,
  normalize `game_result`);
* `buildView` embeds the filter-and-sort block (lines 85-96);
* `renderPage` embeds the page body: the empty guard (line 100), the derived
  boolean/cumulative columns (104-109), the totals and win-rate metrics
  (134-156) and the capped, descending-sorted table (159-161).

A dataframe is a `Frame`: a list of column labels plus rows of `Cell`s kept in
column order.  Missing values (pandas `NaN`/`NaT`/`NA`) are `Cell.null`.
Reading the CSV with `dtype=str` gives a frame whose cells are `Cell.str` or
`Cell.null`; an unreadable file is the `none` input of `load`.  A pandas
`KeyError` (or the initial read failure) is `Except.error`.
-/

/-- One dataframe cell: a raw string, a coerced integer (`Int64`), a parsed
date (encoded as `y*10000 + m*100 + d`), or a missing value (`NaN`/`NaT`). -/
inductive Cell where
  | str (s : String)
  | int (n : Int)
  | date (d : Nat)
  | null
deriving DecidableEq, Repr

/-- A dataframe: column labels and rows of cells aligned with the labels. -/
structure Frame where
  cols : List String
  rows : List (List Cell)
deriving DecidableEq, Repr

/-- Index of the first column with the given label (pandas label lookup). -/
def firstIdx (c : String) : List String → Option Nat
  | [] => none
  | a :: l => if a = c then some 0 else (firstIdx c l).map (· + 1)

/-- Cell of row `r` in the column labelled `c` (missing column reads as null;
the script only reads columns it has checked or that `load` guarantees). -/
def Frame.getCell (f : Frame) (r : List Cell) (c : String) : Cell :=
  match firstIdx c f.cols with
  | some i => r.getD i Cell.null
  | none => Cell.null

/-- The column labelled `c` as a list of cells (a pandas `Series`);
`[]` when the column is absent. -/
def Frame.cells (f : Frame) (c : String) : List Cell :=
  match firstIdx c f.cols with
  | some i => f.rows.map (fun r => r.getD i Cell.null)
  | none => []

/-- Whitespace-trim on a character list (Python `str.strip`). -/
def trimChars (l : List Char) : List Char :=
  ((l.dropWhile Char.isWhitespace).reverse.dropWhile Char.isWhitespace).reverse

/-- Whitespace-trim of a string. -/
def strTrim (s : String) : String :=
  String.mk (trimChars s.data)

/-- Upper-casing of a string (Python `str.upper` on the ASCII data here). -/
def strUpper (s : String) : String :=
  String.mk (s.data.map Char.toUpper)

/-- Value of a decimal digit. -/
def digitVal (c : Char) : Option Nat :=
  if c.isDigit then some (c.toNat - 48) else none

/-- Decimal number denoted by a character list, `none` if empty or non-digit. -/
def natOfDigits (l : List Char) : Option Nat :=
  if l.isEmpty then none
  else l.foldl (fun acc c =>
    match acc, digitVal c with
    | some n, some d => some (n * 10 + d)
    | _, _ => none) (some 0)

/-- Integer denoted by a character list: optional minus sign, then digits. -/
def intOfChars (l : List Char) : Option Int :=
  match l with
  | '-' :: rest => (natOfDigits rest).map (fun n => -(n : Int))
  | _ => (natOfDigits l).map (fun n => (n : Int))

/-- Model of `pd.to_numeric(errors="coerce")` on the integer-valued strings of
this dataset: an optional sign followed by digits parses (after trimming),
anything else coerces to a missing value. -/
def parseIntStr (s : String) : Option Int :=
  intOfChars (trimChars s.data)

/-- Split a character list at `'-'` separators. -/
def splitDash : List Char → List (List Char)
  | [] => [[]]
  | c :: cs =>
    if c = '-' then [] :: splitDash cs
    else match splitDash cs with
      | [] => [[c]]
      | p :: ps => (c :: p) :: ps

/-- Model of the tolerant date parser `pd.to_datetime(errors="coerce")` on the
ISO `YYYY-MM-DD` dates of this dataset, encoded as `y*10000 + m*100 + d`;
anything else coerces to a missing value. -/
def parseDateStr (s : String) : Option Nat :=
  match (splitDash (trimChars s.data)).map natOfDigits with
  | [some y, some m, some d] =>
      if 1 ≤ m && m ≤ 12 && 1 ≤ d && d ≤ 31 then some (y * 10000 + m * 100 + d) else none
  | _ => none

/-- `pd.to_numeric(col, errors="coerce").astype("Int64")` on one cell. -/
def coerceInt (c : Cell) : Cell :=
  match c with
  | Cell.str s => match parseIntStr s with
      | some n => Cell.int n
      | none => Cell.null
  | Cell.int n => Cell.int n
  | _ => Cell.null

/-- `pd.to_datetime(col, errors="coerce")` on one cell. -/
def coerceDate (c : Cell) : Cell :=
  match c with
  | Cell.str s => match parseDateStr s with
      | some d => Cell.date d
      | none => Cell.null
  | Cell.date d => Cell.date d
  | _ => Cell.null

/-- `pd.to_numeric(col, errors="coerce").fillna(0).astype(int)` on one cell:
always an integer, defaulting to 0 for missing or unparseable values. -/
def coercePlayoffs (c : Cell) : Cell :=
  match c with
  | Cell.str s => match parseIntStr s with
      | some n => Cell.int n
      | none => Cell.int 0
  | Cell.int n => Cell.int n
  | _ => Cell.int 0

/-- `col.str.strip().str.upper()` on one cell (the pandas `.str` accessor
propagates missing values). -/
def normCell (c : Cell) : Cell :=
  match c with
  | Cell.str s => Cell.str (strUpper (strTrim s))
  | _ => Cell.null

/-- The lambda of line 45: `"Playoffs" if int(x) == 1 else "Temporada regular"`,
applied to the already-coerced `is_playoffs` cell. -/
def typeStr (c : Cell) : String :=
  match c with
  | Cell.int n => if n = 1 then "Playoffs" else "Temporada regular"
  | _ => "Temporada regular"

/-- The `rename_map` of lines 15-24 as a function on column labels
(labels outside the map pass through unchanged). -/
def canonName (c : String) : String :=
  if c = "year_id" then "season"
  else if c = "team_id" then "team"
  else if c = "date_game" then "game_date"
  else c

/-- Apply `g` to every cell of the column labelled `c`, if it exists
(the `if "…" in df.columns` guards of lines 27-39). -/
def Frame.mapCol (f : Frame) (c : String) (g : Cell → Cell) : Frame :=
  match firstIdx c f.cols with
  | none => f
  | some i => { f with rows := f.rows.map (fun r => r.set i (g (r.getD i Cell.null))) }

/-- `df.dropna(subset=…)`: keep the rows with no missing value in any of the
listed (present) columns. -/
def Frame.dropnaSubset (f : Frame) (subset : List String) : Frame :=
  let idxs := subset.filterMap (fun c => firstIdx c f.cols)
  { f with rows := f.rows.filter (fun r => idxs.all (fun i => !(r.getD i Cell.null == Cell.null))) }

/-- Line 45, `df["type"] = df["is_playoffs"].apply(…)`: a `KeyError` when
`is_playoffs` is absent, otherwise the derived column is set (or created). -/
def Frame.addTypeCol (f : Frame) : Except String Frame :=
  match firstIdx "is_playoffs" f.cols with
  | none => Except.error "KeyError: is_playoffs"
  | some i =>
    match firstIdx "type" f.cols with
    | some j =>
        Except.ok { f with rows := f.rows.map (fun r => r.set j (Cell.str (typeStr (r.getD i Cell.null)))) }
    | none =>
        Except.ok { cols := f.cols ++ ["type"],
                    rows := f.rows.map (fun r => r ++ [Cell.str (typeStr (r.getD i Cell.null))]) }

/-- Lines 48-49: re-assign `game_result` to its stripped, upper-cased value and
keep only the rows whose value is exactly `"W"` or `"L"`. -/
def Frame.normResult (f : Frame) : Except String Frame :=
  match firstIdx "game_result" f.cols with
  | none => Except.error "KeyError: game_result"
  | some i =>
    let rows1 := f.rows.map (fun r => r.set i (normCell (r.getD i Cell.null)))
    Except.ok { f with
      rows := rows1.filter (fun r => r.getD i Cell.null == Cell.str "W" || r.getD i Cell.null == Cell.str "L") }

/-- Lines 14-39 of `load_data`: rename the known columns and coerce
`season`, `seasongame`, `game_date` and `is_playoffs` where present. -/
def preframe (t : Frame) : Frame :=
  ((((Frame.mk (t.cols.map canonName) t.rows).mapCol
      "season" coerceInt).mapCol
      "seasongame" coerceInt).mapCol
      "game_date" coerceDate).mapCol
      "is_playoffs" coercePlayoffs

/-- Line 42 of `load_data`: drop the rows missing `team`, `game_result` or
`season`, restricted to the columns actually present. -/
def droppedFrame (t : Frame) : Frame :=
  (preframe t).dropnaSubset
    (["team", "game_result", "season"].filter (fun c => (preframe t).cols.contains c))

/-- `load_data(path)`: `none` stands for an unreadable source file
(`pd.read_csv` raising), `some t` for the raw string-typed frame it returns. -/
def load (input : Option Frame) : Except String Frame :=
  match input with
  | none => Except.error "DataError: cannot read source file"
  | some t =>
    match (droppedFrame t).addTypeCol with
    | Except.error e => Except.error e
    | Except.ok d3 => d3.normResult

/-- The loaded frame, taking the empty frame on a load failure
(only used to state properties; the script aborts on failure). -/
def dfOf (input : Option Frame) : Frame :=
  match load input with
  | Except.ok df => df
  | Except.error _ => Frame.mk [] []

/-- Lines 54-70 of the script body: after `load_data`, the sidebar reads
`df["season"]` (line 62) and `df["team"]` (line 67); either access raises a
`KeyError` before anything is rendered when the column is absent. -/
def runStartup (input : Option Frame) : Except String Frame :=
  match load input with
  | Except.error e => Except.error e
  | Except.ok df =>
    if df.cols.contains "season" then
      if df.cols.contains "team" then Except.ok df
      else Except.error "KeyError: team"
    else Except.error "KeyError: season"

/-- Sort key of one cell: coerced columns carry `Int64` or datetime values,
missing values have no key (they sort last, `na_position="last"`). -/
def Cell.keyVal : Cell → Option Int
  | Cell.int n => some n
  | Cell.date d => some (d : Int)
  | _ => none

/-- Ascending key comparison, missing values last. -/
def keyLE (a b : Cell) : Bool :=
  match a.keyVal, b.keyVal with
  | some x, some y => decide (x ≤ y)
  | some _, none => true
  | none, some _ => false
  | none, none => true

/-- Descending key comparison (`ascending=False`), missing values still last. -/
def keyGE (a b : Cell) : Bool :=
  match a.keyVal, b.keyVal with
  | some x, some y => decide (y ≤ x)
  | some _, none => true
  | none, some _ => false
  | none, none => true

/-- Insert into a sorted list of rows (used to realise `sort_values` as an
executable comparison sort). -/
def insertBy {α : Type} (le : α → α → Bool) (x : α) : List α → List α
  | [] => [x]
  | y :: ys => if le x y then x :: y :: ys else y :: insertBy le x ys

/-- Comparison sort of the rows. -/
def sortRows {α : Type} (le : α → α → Bool) : List α → List α
  | [] => []
  | x :: xs => insertBy le x (sortRows le xs)

/-- `df.sort_values([c], ascending=…)` (`KeyError` when the column is absent;
default `na_position="last"`). -/
def Frame.sortBy (f : Frame) (c : String) (desc : Bool) : Except String Frame :=
  match firstIdx c f.cols with
  | none => Except.error ("KeyError: " ++ c)
  | some i =>
    Except.ok { f with
      rows := sortRows (fun r r' =>
        (if desc then keyGE else keyLE) (r.getD i Cell.null) (r'.getD i Cell.null)) f.rows }

/-- The sort-key choice of lines 93 and 160: `seasongame` when that column
exists and has any non-missing value in the filtered frame, else `game_date`. -/
def chartKey (f : Frame) : String :=
  if f.cols.contains "seasongame" && (f.cells "seasongame").any (fun c => !(c == Cell.null))
  then "seasongame" else "game_date"

/-- `df[df[c] == v]` (`KeyError` when the column is absent). -/
def Frame.filterEq (f : Frame) (c : String) (v : Cell) : Except String Frame :=
  match firstIdx c f.cols with
  | none => Except.error ("KeyError: " ++ c)
  | some i => Except.ok { f with rows := f.rows.filter (fun r => r.getD i Cell.null == v) }

/-- Lines 85-96: filter to the selected season, game type (unless `"Ambos"`)
and team, then sort ascending by the chosen key. -/
def buildView (df : Frame) (y : Int) (tm g : String) : Except String Frame :=
  match df.filterEq "season" (Cell.int y) with
  | Except.error e => Except.error e
  | Except.ok s1 =>
    match (if g = "Ambos" then Except.ok s1 else s1.filterEq "type" (Cell.str g)) with
    | Except.error e => Except.error e
    | Except.ok s2 =>
      match s2.filterEq "team" (Cell.str tm) with
      | Except.error e => Except.error e
      | Except.ok s3 => s3.sortBy (chartKey s3) false

/-- `load_data` followed by the filter-and-sort block, as run per interaction. -/
def pipelineView (input : Option Frame) (y : Int) (tm g : String) : Except String Frame :=
  match load input with
  | Except.error e => Except.error e
  | Except.ok df => buildView df y tm g

/-- The filtered view, taking the empty frame when the pipeline fails
(only used to state properties). -/
def viewOf (input : Option Frame) (y : Int) (tm g : String) : Frame :=
  match pipelineView input y tm g with
  | Except.ok v => v
  | Except.error _ => Frame.mk [] []

/-- Line 104: `(df_sel["game_result"] == "W").astype(int)`. -/
def winFlags (f : Frame) : List Int :=
  (f.cells "game_result").map (fun c => if c == Cell.str "W" then 1 else 0)

/-- Line 105: `(df_sel["game_result"] == "L").astype(int)`. -/
def lossFlags (f : Frame) : List Int :=
  (f.cells "game_result").map (fun c => if c == Cell.str "L" then 1 else 0)

/-- Line 134: `int(df_sel["is_win"].sum())`. -/
def totalWins (f : Frame) : Int := (winFlags f).sum

/-- Line 135: `int(df_sel["is_loss"].sum())`. -/
def totalLosses (f : Frame) : Int := (lossFlags f).sum

/-- `Series.cumsum()`: running prefix sums in the current row order. -/
def cumsum (l : List Int) : List Int :=
  (List.range l.length).map (fun i => (l.take (i + 1)).sum)

/-- Lines 155-156: the win-rate metric is only computed and displayed when
`total_wins + total_losses > 0`; its value is `wins / games * 100`. -/
def winRateOf (tw tl : Int) : Option ℚ :=
  if 0 < tw + tl then some (((tw : ℚ) / ((tw : ℚ) + (tl : ℚ))) * 100) else none

/-- The fixed column subset projected into the table (line 159). -/
def tableCols : List String :=
  ["season", "seasongame", "game_date", "team", "game_result", "type", "pts", "opp_id", "opp_pts"]

/-- `df[cs]` column projection (`KeyError` when any listed column is absent). -/
def Frame.select (f : Frame) (cs : List String) : Except String Frame :=
  if cs.all (fun c => f.cols.contains c) then
    Except.ok { cols := cs, rows := f.rows.map (fun r => cs.map (fun c => f.getCell r c)) }
  else Except.error "KeyError: column subset"

/-- Lines 159-161: project the fixed columns, sort descending by the same key
choice as the chart (recomputed on the view), keep the first 50 rows. -/
def tableView (v : Frame) : Except String Frame :=
  match v.select tableCols with
  | Except.error e => Except.error e
  | Except.ok proj =>
    match proj.sortBy (chartKey v) true with
    | Except.error e => Except.error e
    | Except.ok sorted => Except.ok { sorted with rows := sorted.rows.take 50 }

/-- What the page body renders: the "no data" notice (line 101) or the charts,
metrics and table computed from the non-empty view. -/
inductive Render where
  | noData
  | dashboard (cumW cumL : List Int) (totW totL : Int) (rate : Option ℚ) (tbl : Frame)
deriving DecidableEq, Repr

/-- Lines 100-161: the page body for one user selection. -/
def renderPage (input : Option Frame) (y : Int) (tm g : String) : Except String Render :=
  match pipelineView input y tm g with
  | Except.error e => Except.error e
  | Except.ok v =>
    if v.rows.isEmpty then Except.ok Render.noData
    else
      match tableView v with
      | Except.error e => Except.error e
      | Except.ok tb =>
        Except.ok (Render.dashboard (cumsum (winFlags v)) (cumsum (lossFlags v))
          (totalWins v) (totalLosses v) (winRateOf (totalWins v) (totalLosses v)) tb)

/-- The rendered page, taking the notice on a pipeline failure
(only used to state properties). -/
def pageOf (input : Option Frame) (y : Int) (tm g : String) : Render :=
  match renderPage input y tm g with
  | Except.ok r => r
  | Except.error _ => Render.noData

def Render.isDashboard : Render → Bool
  | Render.dashboard _ _ _ _ _ _ => true
  | Render.noData => false

def Render.cumW : Render → List Int
  | Render.dashboard cw _ _ _ _ _ => cw
  | Render.noData => []

def Render.cumL : Render → List Int
  | Render.dashboard _ cl _ _ _ _ => cl
  | Render.noData => []

def Render.totW : Render → Int
  | Render.dashboard _ _ tw _ _ _ => tw
  | Render.noData => 0

def Render.totL : Render → Int
  | Render.dashboard _ _ _ tl _ _ => tl
  | Render.noData => 0

def Render.rate : Render → Option ℚ
  | Render.dashboard _ _ _ _ rt _ => rt
  | Render.noData => none

def Render.tbl : Render → Frame
  | Render.dashboard _ _ _ _ _ tb => tb
  | Render.noData => Frame.mk [] []

/-- `Except` success test. -/
def isOkE {α : Type} (e : Except String α) : Bool :=
  match e with
  | Except.ok _ => true
  | Except.error _ => false

/-- The column projection of line 159 on a view (empty frame on failure;
only used to state properties of the table). -/
def projOf (v : Frame) : Frame :=
  match v.select tableCols with
  | Except.ok p => p
  | Except.error _ => Frame.mk [] []

/-- The projected view of line 159 re-sorted descending by the chart key
(empty frame on failure; only used to state properties of the table). -/
def sortedProjOf (v : Frame) : Frame :=
  match (projOf v).sortBy (chartKey v) true with
  | Except.ok s => s
  | Except.error _ => Frame.mk [] []

/-- One row matches the user selection: the conjunction of the three filters
of lines 85-90 (the `type` filter is skipped for `"Ambos"`). -/
def matchesSel (df : Frame) (r : List Cell) (y : Int) (tm g : String) : Bool :=
  (df.getCell r "season" == Cell.int y)
    && (g == "Ambos" || df.getCell r "type" == Cell.str g)
    && (df.getCell r "team" == Cell.str tm)

/-! ### Concrete input tables used to instantiate the theorems -/

/-- The source column headers of `nba_all_elo.csv` that the script uses. -/
def srcCols : List String :=
  ["year_id", "team_id", "date_game", "seasongame", "is_playoffs", "game_result",
   "pts", "opp_id", "opp_pts"]

/-- One raw CSV row for a 2015 Boston game. -/
def mkGame (d sg pl gr : String) : List Cell :=
  [Cell.str "2015", Cell.str "BOS", Cell.str d, Cell.str sg, Cell.str pl, Cell.str gr,
   Cell.str "100", Cell.str "NYK", Cell.str "90"]

/-- The three-game example table of the specification (W, L, W). -/
def tSmall : Frame :=
  Frame.mk srcCols
    [mkGame "2015-01-01" "1" "0" "W",
     mkGame "2015-01-02" "2" "0" "L",
     mkGame "2015-01-03" "3" "0" "W"]

/-- A fourteen-game table with 10 wins and 4 losses. -/
def tBig : Frame :=
  Frame.mk srcCols
    [mkGame "2015-01-01" "1" "0" "W",
     mkGame "2015-01-02" "2" "0" "W",
     mkGame "2015-01-03" "3" "0" "L",
     mkGame "2015-01-04" "4" "0" "W",
     mkGame "2015-01-05" "5" "0" "W",
     mkGame "2015-01-06" "6" "0" "W",
     mkGame "2015-01-07" "7" "0" "L",
     mkGame "2015-01-08" "8" "0" "W",
     mkGame "2015-01-09" "9" "0" "W",
     mkGame "2015-01-10" "10" "0" "L",
     mkGame "2015-01-11" "11" "0" "W",
     mkGame "2015-01-12" "12" "0" "W",
     mkGame "2015-01-13" "13" "0" "L",
     mkGame "2015-01-14" "14" "0" "W"]

/-- A one-row regular-season table (`is_playoffs = 0`). -/
def tReg : Frame :=
  Frame.mk ["year_id", "team_id", "is_playoffs", "game_result"]
    [[Cell.str "2015", Cell.str "BOS", Cell.str "0", Cell.str "W"]]

/-- A table with `game_result` and `is_playoffs` but no season and no team
column at all. -/
def tNoSeason : Frame :=
  Frame.mk ["game_result", "is_playoffs"]
    [[Cell.str "W", Cell.str "1"]]

/-- A table with the mandatory identification columns but no `is_playoffs`
column. -/
def tNoPlayoffs : Frame :=
  Frame.mk ["year_id", "team_id", "game_result"]
    [[Cell.str "2015", Cell.str "BOS", Cell.str "W"]]

/-! ### Basic list lemmas -/

theorem getD_set_ne (r : List Cell) (i j : Nat) (x : Cell) (h : i ≠ j) :
    (r.set j x).getD i Cell.null = r.getD i Cell.null := by
  simp [List.getD_eq_getElem?_getD, List.getElem?_set_ne (Ne.symm h)]

theorem getD_append_left (r r2 : List Cell) (i : Nat) (h : i < r.length) :
    (r ++ r2).getD i Cell.null = r.getD i Cell.null := by
  simp [List.getD_eq_getElem?_getD, List.getElem?_append, h]

theorem getD_oob (r : List Cell) (i : Nat) (h : r.length ≤ i) :
    r.getD i Cell.null = Cell.null := by
  simp [List.getD_eq_getElem?_getD, List.getElem?_eq_none h]

theorem lt_of_getD_ne_null (r : List Cell) (i : Nat) (h : r.getD i Cell.null ≠ Cell.null) :
    i < r.length := by
  by_contra hc
  push_neg at hc
  exact h (getD_oob r i hc)

/-! ### Lemmas about `firstIdx` -/

theorem firstIdx_lt_length {c : String} :
    ∀ {l : List String} {i : Nat}, firstIdx c l = some i → i < l.length := by
  intro l
  induction l with
  | nil => intro i h; simp [firstIdx] at h
  | cons a l ih =>
    intro i h
    by_cases ha : a = c
    · simp [firstIdx, ha] at h
      simp [List.length_cons]
      omega
    · simp [firstIdx, ha] at h
      obtain ⟨j, hj, rfl⟩ := h
      have := ih hj
      simp [List.length_cons]
      omega

theorem firstIdx_getD {c : String} :
    ∀ {l : List String} {i : Nat}, firstIdx c l = some i → l.getD i "" = c := by
  intro l
  induction l with
  | nil => intro i h; simp [firstIdx] at h
  | cons a l ih =>
    intro i h
    by_cases ha : a = c
    · simp [firstIdx, ha] at h
      subst h
      simpa using ha
    · simp [firstIdx, ha] at h
      obtain ⟨j, hj, rfl⟩ := h
      simpa using ih hj

theorem firstIdx_inj {c c' : String} {l : List String} {i j : Nat}
    (h : firstIdx c l = some i) (h' : firstIdx c' l = some j) (hne : c ≠ c') : i ≠ j := by
  intro hij
  subst hij
  exact hne ((firstIdx_getD h).symm.trans (firstIdx_getD h'))

theorem firstIdx_none_iff {c : String} :
    ∀ {l : List String}, firstIdx c l = none ↔ c ∉ l := by
  intro l
  induction l with
  | nil => simp [firstIdx]
  | cons a l ih =>
    by_cases ha : a = c
    · subst ha
      simp [firstIdx]
    · simp only [firstIdx, ha, if_false, Option.map_eq_none', ih, List.mem_cons]
      constructor
      · intro h hm
        rcases hm with rfl | hm
        · exact ha rfl
        · exact h hm
      · intro h hm
        exact h (Or.inr hm)

theorem firstIdx_isSome_of_mem {c : String} {l : List String} (h : c ∈ l) :
    ∃ i, firstIdx c l = some i := by
  cases hf : firstIdx c l with
  | none => exact absurd h (firstIdx_none_iff.mp hf)
  | some i => exact ⟨i, rfl⟩

theorem firstIdx_append {c : String} {l l2 : List String} {i : Nat}
    (h : firstIdx c l = some i) : firstIdx c (l ++ l2) = some i := by
  induction l generalizing i with
  | nil => simp [firstIdx] at h
  | cons a l ih =>
    by_cases ha : a = c
    · simp [firstIdx, ha] at h ⊢
      omega
    · simp [firstIdx, ha] at h ⊢
      obtain ⟨j, hj, rfl⟩ := h
      exact ⟨j, ih hj, rfl⟩

/-! ### Lemmas about the comparison sort -/

theorem insertBy_perm {α : Type} (le : α → α → Bool) (x : α) :
    ∀ l : List α, List.Perm (insertBy le x l) (x :: l)
  | [] => List.Perm.refl _
  | y :: ys => by
    unfold insertBy
    by_cases h : le x y
    · simp [h]
    · simp [h]
      exact ((insertBy_perm le x ys).cons y).trans (List.Perm.swap x y ys)

theorem sortRows_perm {α : Type} (le : α → α → Bool) :
    ∀ l : List α, List.Perm (sortRows le l) l
  | [] => List.Perm.refl _
  | x :: xs => (insertBy_perm le x (sortRows le xs)).trans ((sortRows_perm le xs).cons x)

theorem mem_insertBy {α : Type} {le : α → α → Bool} {x b : α} {l : List α}
    (h : b ∈ insertBy le x l) : b = x ∨ b ∈ l := by
  have := (insertBy_perm le x l).mem_iff.mp h
  simpa using this

theorem pairwise_insertBy {α : Type} {le : α → α → Bool}
    (htot : ∀ a b, le a b = true ∨ le b a = true)
    (htr : ∀ a b c, le a b = true → le b c = true → le a c = true)
    (x : α) : ∀ {l : List α}, l.Pairwise (fun a b => le a b = true) →
      (insertBy le x l).Pairwise (fun a b => le a b = true) := by
  intro l
  induction l with
  | nil => intro _; simp [insertBy]
  | cons y ys ih =>
    intro hp
    rw [List.pairwise_cons] at hp
    obtain ⟨hy, hys⟩ := hp
    unfold insertBy
    by_cases h : le x y = true
    · rw [if_pos h, List.pairwise_cons]
      refine ⟨?_, by rw [List.pairwise_cons]; exact ⟨hy, hys⟩⟩
      intro b hb
      rcases List.mem_cons.mp hb with rfl | hb
      · exact h
      · exact htr x y b h (hy b hb)
    · rw [if_neg h, List.pairwise_cons]
      refine ⟨?_, ih hys⟩
      intro b hb
      rcases mem_insertBy hb with rfl | hb
      · rcases htot b y with h' | h'
        · exact absurd h' h
        · exact h'
      · exact hy b hb

theorem pairwise_sortRows {α : Type} {le : α → α → Bool}
    (htot : ∀ a b, le a b = true ∨ le b a = true)
    (htr : ∀ a b c, le a b = true → le b c = true → le a c = true) :
    ∀ l : List α, (sortRows le l).Pairwise (fun a b => le a b = true)
  | [] => List.Pairwise.nil
  | x :: xs => pairwise_insertBy htot htr x (pairwise_sortRows htot htr xs)

theorem keyLE_total (a b : Cell) : keyLE a b = true ∨ keyLE b a = true := by
  unfold keyLE
  cases ha : a.keyVal <;> cases hb : b.keyVal <;> simp <;> omega

theorem keyLE_trans (a b c : Cell) : keyLE a b = true → keyLE b c = true → keyLE a c = true := by
  unfold keyLE
  cases ha : a.keyVal <;> cases hb : b.keyVal <;> cases hc : c.keyVal <;> simp <;> omega

theorem keyGE_total (a b : Cell) : keyGE a b = true ∨ keyGE b a = true := by
  unfold keyGE
  cases ha : a.keyVal <;> cases hb : b.keyVal <;> simp <;> omega

theorem keyGE_trans (a b c : Cell) : keyGE a b = true → keyGE b c = true → keyGE a c = true := by
  unfold keyGE
  cases ha : a.keyVal <;> cases hb : b.keyVal <;> cases hc : c.keyVal <;> simp <;> omega

/-! ### Frame operation inversion lemmas -/

theorem mapCol_cols (f : Frame) (c : String) (g : Cell → Cell) : (f.mapCol c g).cols = f.cols := by
  unfold Frame.mapCol
  split <;> rfl

theorem dropna_cols (f : Frame) (s : List String) : (f.dropnaSubset s).cols = f.cols := rfl

theorem preframe_cols (t : Frame) : (preframe t).cols = t.cols.map canonName := by
  unfold preframe
  simp [mapCol_cols]

theorem droppedFrame_cols (t : Frame) : (droppedFrame t).cols = t.cols.map canonName := by
  unfold droppedFrame
  rw [dropna_cols, preframe_cols]

theorem filterEq_ok_spec {f s : Frame} {c : String} {v : Cell}
    (h : f.filterEq c v = Except.ok s) :
    ∃ i, firstIdx c f.cols = some i ∧ s.cols = f.cols ∧
      s.rows = f.rows.filter (fun r => r.getD i Cell.null == v) := by
  unfold Frame.filterEq at h
  split at h
  · exact Except.noConfusion h
  next i hi =>
    injection h with h2
    subst h2
    exact ⟨i, hi, rfl, rfl⟩

theorem sortBy_ok_spec {f s : Frame} {c : String} {desc : Bool}
    (h : f.sortBy c desc = Except.ok s) :
    ∃ i, firstIdx c f.cols = some i ∧ s.cols = f.cols ∧
      s.rows = sortRows (fun r r' =>
        (if desc then keyGE else keyLE) (r.getD i Cell.null) (r'.getD i Cell.null)) f.rows := by
  unfold Frame.sortBy at h
  split at h
  · exact Except.noConfusion h
  next i hi =>
    injection h with h2
    subst h2
    exact ⟨i, hi, rfl, rfl⟩

theorem addTypeCol_ok_spec {f s : Frame} (h : f.addTypeCol = Except.ok s) :
    ∃ i, firstIdx "is_playoffs" f.cols = some i ∧
      ((∃ j, firstIdx "type" f.cols = some j ∧ s.cols = f.cols ∧
          s.rows = f.rows.map (fun r => r.set j (Cell.str (typeStr (r.getD i Cell.null)))))
        ∨ (firstIdx "type" f.cols = none ∧ s.cols = f.cols ++ ["type"] ∧
          s.rows = f.rows.map (fun r => r ++ [Cell.str (typeStr (r.getD i Cell.null))]))) := by
  unfold Frame.addTypeCol at h
  split at h
  · exact Except.noConfusion h
  next i hi =>
    split at h
    next j hj =>
      injection h with h2
      subst h2
      exact ⟨i, hi, Or.inl ⟨j, hj, rfl, rfl⟩⟩
    next hj =>
      injection h with h2
      subst h2
      exact ⟨i, hi, Or.inr ⟨hj, rfl, rfl⟩⟩

theorem normResult_ok_spec {f s : Frame} (h : f.normResult = Except.ok s) :
    ∃ i, firstIdx "game_result" f.cols = some i ∧ s.cols = f.cols ∧
      s.rows = (f.rows.map (fun r => r.set i (normCell (r.getD i Cell.null)))).filter
        (fun r => r.getD i Cell.null == Cell.str "W" || r.getD i Cell.null == Cell.str "L") := by
  unfold Frame.normResult at h
  split at h
  · exact Except.noConfusion h
  next i hi =>
    injection h with h2
    subst h2
    exact ⟨i, hi, rfl, rfl⟩

theorem select_ok_spec {f s : Frame} {cs : List String} (h : f.select cs = Except.ok s) :
    cs.all (fun c => f.cols.contains c) = true ∧ s.cols = cs ∧
      s.rows = f.rows.map (fun r => cs.map (fun c => f.getCell r c)) := by
  unfold Frame.select at h
  split at h
  next hall =>
    injection h with h2
    subst h2
    exact ⟨hall, rfl, rfl⟩
  · exact Except.noConfusion h

theorem load_ok_spec {t df : Frame} (h : load (some t) = Except.ok df) :
    ∃ d3, (droppedFrame t).addTypeCol = Except.ok d3 ∧ d3.normResult = Except.ok df := by
  simp only [load] at h
  split at h
  · exact Except.noConfusion h
  next d3 hd3 => exact ⟨d3, hd3, h⟩

theorem dropna_mem_nonnull {f : Frame} {subset : List String} {c : String} {i : Nat}
    (hc : c ∈ subset) (hi : firstIdx c f.cols = some i) :
    ∀ r ∈ (f.dropnaSubset subset).rows, r.getD i Cell.null ≠ Cell.null := by
  intro r hr
  simp only [Frame.dropnaSubset, List.mem_filter] at hr
  obtain ⟨_, hall⟩ := hr
  have hmem : i ∈ subset.filterMap (fun c' => firstIdx c' f.cols) :=
    List.mem_filterMap.mpr ⟨c, hc, hi⟩
  have := (List.all_eq_true.mp hall) i hmem
  simpa using this

theorem dropna_rows_subset {f : Frame} {subset : List String} :
    ∀ r ∈ (f.dropnaSubset subset).rows, r ∈ f.rows := by
  intro r hr
  simp only [Frame.dropnaSubset, List.mem_filter] at hr
  exact hr.1

/-! ### `canonName` characterizations -/

theorem canonName_eq_playoffs (c : String) :
    canonName c = "is_playoffs" ↔ c = "is_playoffs" := by
  unfold canonName
  split
  next h => subst h; decide
  next =>
    split
    next h => subst h; decide
    next =>
      split
      next h => subst h; decide
      next => exact Iff.rfl

theorem canonName_eq_result (c : String) :
    canonName c = "game_result" ↔ c = "game_result" := by
  unfold canonName
  split
  next h => subst h; decide
  next =>
    split
    next h => subst h; decide
    next =>
      split
      next h => subst h; decide
      next => exact Iff.rfl

theorem canonName_eq_type (c : String) : canonName c = "type" ↔ c = "type" := by
  unfold canonName
  split
  next h => subst h; decide
  next =>
    split
    next h => subst h; decide
    next =>
      split
      next h => subst h; decide
      next => exact Iff.rfl

theorem canonName_eq_season (c : String) :
    canonName c = "season" ↔ (c = "season" ∨ c = "year_id") := by
  unfold canonName
  split
  next h => subst h; decide
  next h1 =>
    split
    next h => subst h; decide
    next h2 =>
      split
      next h => subst h; decide
      next h3 =>
        constructor
        · intro h; exact Or.inl h
        · intro h
          rcases h with h | h
          · exact h
          · exact absurd h h1

theorem canonName_eq_team (c : String) :
    canonName c = "team" ↔ (c = "team" ∨ c = "team_id") := by
  unfold canonName
  split
  next h => subst h; decide
  next h1 =>
    split
    next h => subst h; decide
    next h2 =>
      split
      next h => subst h; decide
      next h3 =>
        constructor
        · intro h; exact Or.inl h
        · intro h
          rcases h with h | h
          · exact h
          · exact absurd h h2

/-! ### Small helper lemmas -/

theorem cells_eq_of_firstIdx {f : Frame} {c : String} {i : Nat}
    (hi : firstIdx c f.cols = some i) :
    f.cells c = f.rows.map (fun r => r.getD i Cell.null) := by
  unfold Frame.cells
  rw [hi]

theorem getCell_eq_of_firstIdx {f : Frame} {c : String} {i : Nat}
    (hi : firstIdx c f.cols = some i) (r : List Cell) :
    f.getCell r c = r.getD i Cell.null := by
  unfold Frame.getCell
  rw [hi]

theorem mem_of_firstIdx_some {c : String} {l : List String} {i : Nat}
    (h : firstIdx c l = some i) : c ∈ l := by
  by_contra hm
  rw [← firstIdx_none_iff] at hm
  rw [h] at hm
  exact Option.noConfusion hm

theorem isOkE_iff {α : Type} (e : Except String α) : isOkE e = true ↔ ∃ a, e = Except.ok a := by
  cases e <;> simp [isOkE]

theorem cells_length {f : Frame} {c : String} (h : c ∈ f.cols) :
    (f.cells c).length = f.rows.length := by
  obtain ⟨i, hi⟩ := firstIdx_isSome_of_mem h
  rw [cells_eq_of_firstIdx hi, List.length_map]

/-! ### Invariants of `load` -/

theorem load_ok_cols {t df : Frame} (h : load (some t) = Except.ok df) :
    df.cols = t.cols.map canonName ∨ df.cols = t.cols.map canonName ++ ["type"] := by
  obtain ⟨d3, hadd, hnorm⟩ := load_ok_spec h
  obtain ⟨i, hi, hcase⟩ := addTypeCol_ok_spec hadd
  obtain ⟨k, hk, hcols, hrows⟩ := normResult_ok_spec hnorm
  rcases hcase with ⟨j, hj, hc, _⟩ | ⟨hj, hc, _⟩
  · left
    rw [hcols, hc, droppedFrame_cols]
  · right
    rw [hcols, hc, droppedFrame_cols]

theorem load_result_WL {t df : Frame} (h : load (some t) = Except.ok df) :
    ∀ x ∈ df.cells "game_result", x = Cell.str "W" ∨ x = Cell.str "L" := by
  obtain ⟨d3, hadd, hnorm⟩ := load_ok_spec h
  obtain ⟨i, hi, hcols, hrows⟩ := normResult_ok_spec hnorm
  have hi' : firstIdx "game_result" df.cols = some i := by rw [hcols]; exact hi
  intro x hx
  rw [cells_eq_of_firstIdx hi', hrows] at hx
  simp only [List.mem_map] at hx
  obtain ⟨r, hr, rfl⟩ := hx
  have hp := (List.mem_filter.mp hr).2
  simp only [Bool.or_eq_true, beq_iff_eq] at hp
  exact hp

theorem load_gr_mem {t df : Frame} (h : load (some t) = Except.ok df) :
    "game_result" ∈ df.cols := by
  obtain ⟨d3, hadd, hnorm⟩ := load_ok_spec h
  obtain ⟨i, hi, hcols, hrows⟩ := normResult_ok_spec hnorm
  rw [hcols]
  exact mem_of_firstIdx_some hi

theorem load_nonnull {t df : Frame} {c : String} (h : load (some t) = Except.ok df)
    (hc : c = "season" ∨ c = "team") (hmem : c ∈ df.cols) :
    ∀ r ∈ df.rows, df.getCell r c ≠ Cell.null := by
  obtain ⟨d3, hadd, hnorm⟩ := load_ok_spec h
  obtain ⟨ip, hip, hcase⟩ := addTypeCol_ok_spec hadd
  obtain ⟨ig, hig, hcols, hrows⟩ := normResult_ok_spec hnorm
  have hcne_type : c ≠ "type" := by rcases hc with rfl | rfl <;> decide
  have hcne_gr : c ≠ "game_result" := by rcases hc with rfl | rfl <;> decide
  have hcne_ip : c ≠ "is_playoffs" := by rcases hc with rfl | rfl <;> decide
  -- membership of `c` in the pre-`type` columns
  have hmem3 : c ∈ d3.cols := hcols ▸ hmem
  have hmemD : c ∈ (droppedFrame t).cols := by
    rcases hcase with ⟨j, hj, hc3, _⟩ | ⟨hj, hc3, _⟩
    · rw [hc3] at hmem3
      exact hmem3
    · rw [hc3] at hmem3
      rcases List.mem_append.mp hmem3 with hm | hm
      · exact hm
      · simp at hm
        exact absurd hm hcne_type
  obtain ⟨ic, hic⟩ := firstIdx_isSome_of_mem hmemD
  -- `c` is part of the dropna subset
  have hsubset : c ∈ (["team", "game_result", "season"].filter
      (fun c' => (preframe t).cols.contains c')) := by
    apply List.mem_filter.mpr
    constructor
    · rcases hc with rfl | rfl <;> decide
    · have : (droppedFrame t).cols = (preframe t).cols := dropna_cols _ _
      rw [← this]
      exact List.elem_eq_true_of_mem hmemD
  have hdrop : ∀ r ∈ (droppedFrame t).rows, r.getD ic Cell.null ≠ Cell.null :=
    fun r hr =>
      dropna_mem_nonnull hsubset (show firstIdx c (preframe t).cols = some ic from hic) r hr
  -- through `addTypeCol`
  have hd3 : firstIdx c d3.cols = some ic ∧
      ∀ r ∈ d3.rows, r.getD ic Cell.null ≠ Cell.null := by
    rcases hcase with ⟨j, hj, hc3, hr3⟩ | ⟨hj, hc3, hr3⟩
    · constructor
      · rw [hc3]
        exact hic
      · intro r hr
        rw [hr3] at hr
        simp only [List.mem_map] at hr
        obtain ⟨r0, hr0, rfl⟩ := hr
        rw [getD_set_ne r0 ic j _ (firstIdx_inj hic hj hcne_type)]
        exact hdrop r0 hr0
    · constructor
      · rw [hc3]
        exact firstIdx_append hic
      · intro r hr
        rw [hr3] at hr
        simp only [List.mem_map] at hr
        obtain ⟨r0, hr0, rfl⟩ := hr
        have hne := hdrop r0 hr0
        rw [getD_append_left r0 _ ic (lt_of_getD_ne_null r0 ic hne)]
        exact hne
  -- through `normResult`
  have hicdf : firstIdx c df.cols = some ic := by
    rw [hcols]
    exact hd3.1
  intro r hr
  rw [getCell_eq_of_firstIdx hicdf]
  rw [hrows] at hr
  have hr' := (List.mem_filter.mp hr).1
  simp only [List.mem_map] at hr'
  obtain ⟨r0, hr0, rfl⟩ := hr'
  rw [getD_set_ne r0 ic ig _ (firstIdx_inj hd3.1 hig hcne_gr)]
  exact hd3.2 r0 hr0

theorem addTypeCol_ok_of_mem {f : Frame} (h : "is_playoffs" ∈ f.cols) :
    ∃ s, f.addTypeCol = Except.ok s := by
  obtain ⟨i, hi⟩ := firstIdx_isSome_of_mem h
  unfold Frame.addTypeCol
  rw [hi]
  cases hj : firstIdx "type" f.cols
  · exact ⟨_, rfl⟩
  · exact ⟨_, rfl⟩

theorem normResult_ok_of_mem {f : Frame} (h : "game_result" ∈ f.cols) :
    ∃ s, f.normResult = Except.ok s := by
  obtain ⟨i, hi⟩ := firstIdx_isSome_of_mem h
  unfold Frame.normResult
  rw [hi]
  exact ⟨_, rfl⟩

theorem load_ok_of_mem {t : Frame} (hgr : "game_result" ∈ t.cols)
    (hip : "is_playoffs" ∈ t.cols) : ∃ df, load (some t) = Except.ok df := by
  have hipD : "is_playoffs" ∈ (droppedFrame t).cols := by
    rw [droppedFrame_cols]
    exact List.mem_map.mpr ⟨"is_playoffs", hip, rfl⟩
  obtain ⟨d3, hd3⟩ := addTypeCol_ok_of_mem hipD
  have hgr3 : "game_result" ∈ d3.cols := by
    obtain ⟨i, hi, hcase⟩ := addTypeCol_ok_spec hd3
    have hgrD : "game_result" ∈ (droppedFrame t).cols := by
      rw [droppedFrame_cols]
      exact List.mem_map.mpr ⟨"game_result", hgr, rfl⟩
    rcases hcase with ⟨j, hj, hc3, _⟩ | ⟨hj, hc3, _⟩
    · rw [hc3]
      exact hgrD
    · rw [hc3]
      exact List.mem_append.mpr (Or.inl hgrD)
  obtain ⟨df, hdf⟩ := normResult_ok_of_mem hgr3
  refine ⟨df, ?_⟩
  simp only [load]
  rw [hd3]
  exact hdf

theorem load_mem_of_ok {t df : Frame} (h : load (some t) = Except.ok df) :
    "game_result" ∈ t.cols ∧ "is_playoffs" ∈ t.cols := by
  obtain ⟨d3, hadd, hnorm⟩ := load_ok_spec h
  obtain ⟨ip, hip, hcase⟩ := addTypeCol_ok_spec hadd
  obtain ⟨ig, hig, _, _⟩ := normResult_ok_spec hnorm
  constructor
  · have hgr3 : "game_result" ∈ d3.cols := mem_of_firstIdx_some hig
    have hgrD : "game_result" ∈ (droppedFrame t).cols := by
      rcases hcase with ⟨j, hj, hc3, _⟩ | ⟨hj, hc3, _⟩
      · rw [hc3] at hgr3
        exact hgr3
      · rw [hc3] at hgr3
        rcases List.mem_append.mp hgr3 with hm | hm
        · exact hm
        · simp at hm
    rw [droppedFrame_cols] at hgrD
    obtain ⟨c0, hc0, hc0e⟩ := List.mem_map.mp hgrD
    rwa [← (canonName_eq_result c0).mp hc0e]
  · have hipD : "is_playoffs" ∈ (droppedFrame t).cols := mem_of_firstIdx_some hip
    rw [droppedFrame_cols] at hipD
    obtain ⟨c0, hc0, hc0e⟩ := List.mem_map.mp hipD
    rwa [← (canonName_eq_playoffs c0).mp hc0e]

/-! ### Lemmas about the query pipeline -/

theorem perm_any {α : Type} {a b : List α} (h : List.Perm a b) (p : α → Bool) :
    a.any p = b.any p := by
  apply Bool.eq_iff_iff.mpr
  simp only [List.any_eq_true]
  exact ⟨fun ⟨x, hx, hp⟩ => ⟨x, h.mem_iff.mp hx, hp⟩,
    fun ⟨x, hx, hp⟩ => ⟨x, h.mem_iff.mpr hx, hp⟩⟩

theorem cells_perm_of_rows_perm {f f' : Frame} (hc : f'.cols = f.cols)
    (hr : List.Perm f'.rows f.rows) (c : String) :
    List.Perm (f'.cells c) (f.cells c) := by
  unfold Frame.cells
  rw [hc]
  cases hi : firstIdx c f.cols
  · exact List.Perm.refl _
  · exact hr.map _

theorem chartKey_eq_of_perm {f f' : Frame} (hc : f'.cols = f.cols)
    (hr : List.Perm f'.rows f.rows) : chartKey f' = chartKey f := by
  unfold chartKey
  rw [hc, perm_any (cells_perm_of_rows_perm hc hr "seasongame") _]

theorem chartKey_cases (f : Frame) : chartKey f = "seasongame" ∨ chartKey f = "game_date" := by
  unfold chartKey
  split
  · exact Or.inl rfl
  · exact Or.inr rfl

/-- Inversion of `buildView`: the four stage results. -/
theorem buildView_ok_spec {df v : Frame} {y : Int} {tm g : String}
    (h : buildView df y tm g = Except.ok v) :
    ∃ s1 s2 s3, df.filterEq "season" (Cell.int y) = Except.ok s1
      ∧ (if g = "Ambos" then Except.ok s1 else s1.filterEq "type" (Cell.str g)) = Except.ok s2
      ∧ s2.filterEq "team" (Cell.str tm) = Except.ok s3
      ∧ s3.sortBy (chartKey s3) false = Except.ok v := by
  unfold buildView at h
  split at h
  · exact Except.noConfusion h
  next s1 hs1 =>
    split at h
    · exact Except.noConfusion h
    next s2 hs2 =>
      split at h
      · exact Except.noConfusion h
      next s3 hs3 => exact ⟨s1, s2, s3, hs1, hs2, hs3, h⟩

theorem ifFilter_ok_spec {s1 s2 : Frame} {g : String}
    (h : (if g = "Ambos" then Except.ok s1 else s1.filterEq "type" (Cell.str g)) = Except.ok s2) :
    s2.cols = s1.cols ∧ ∀ r ∈ s2.rows, r ∈ s1.rows := by
  split at h
  · injection h with h2
    subst h2
    exact ⟨rfl, fun r hr => hr⟩
  · obtain ⟨i, hi, hc, hr⟩ := filterEq_ok_spec h
    refine ⟨hc, ?_⟩
    intro r hrm
    rw [hr] at hrm
    exact (List.mem_filter.mp hrm).1

theorem buildView_ok_basic {df v : Frame} {y : Int} {tm g : String}
    (h : buildView df y tm g = Except.ok v) :
    v.cols = df.cols ∧ ∀ r ∈ v.rows, r ∈ df.rows := by
  obtain ⟨s1, s2, s3, hs1, hs2, hs3, hsort⟩ := buildView_ok_spec h
  obtain ⟨i1, _, hc1, hr1⟩ := filterEq_ok_spec hs1
  obtain ⟨hc2, hm2⟩ := ifFilter_ok_spec hs2
  obtain ⟨i3, _, hc3, hr3⟩ := filterEq_ok_spec hs3
  obtain ⟨i4, _, hc4, hr4⟩ := sortBy_ok_spec hsort
  constructor
  · rw [hc4, hc3, hc2, hc1]
  · intro r hr
    rw [hr4] at hr
    have hr' := (sortRows_perm _ s3.rows).mem_iff.mp hr
    rw [hr3] at hr'
    have hr'' := hm2 r (List.mem_filter.mp hr').1
    rw [hr1] at hr''
    exact (List.mem_filter.mp hr'').1

theorem cells_mem_of_rows_mem {f f' : Frame} (hc : f'.cols = f.cols)
    (hm : ∀ r ∈ f'.rows, r ∈ f.rows) {c : String} :
    ∀ x ∈ f'.cells c, x ∈ f.cells c := by
  intro x hx
  unfold Frame.cells at hx ⊢
  rw [hc] at hx
  cases hi : firstIdx c f.cols
  · rw [hi] at hx
    exact absurd hx (by simp)
  next i =>
    rw [hi] at hx
    simp only [List.mem_map] at hx ⊢
    obtain ⟨r, hr, rfl⟩ := hx
    exact ⟨r, hm r hr, rfl⟩

/-! ### Lemmas about `cumsum` and the win/loss flags -/

theorem cumsum_length (l : List Int) : (cumsum l).length = l.length := by
  simp [cumsum]

theorem cumsum_getD {l : List Int} {i : Nat} (h : i < l.length) :
    (cumsum l).getD i 0 = (l.take (i + 1)).sum := by
  unfold cumsum
  rw [List.getD_eq_getElem?_getD, List.getElem?_map]
  simp [List.getElem?_range, h]

theorem sum_take_succ_getD (l : List Int) (k : Nat) (h : k < l.length) :
    (l.take (k + 1)).sum = (l.take k).sum + l.getD k 0 := by
  rw [List.sum_take_succ l k h]
  simp [List.getD_eq_getElem?_getD, List.getElem?_eq_getElem h]

theorem take_sum_add {w l : List Int} (hlen : w.length = l.length)
    (hpt : ∀ j, j < w.length → w.getD j 0 + l.getD j 0 = 1) :
    ∀ k, k ≤ w.length → (w.take k).sum + (l.take k).sum = (k : Int) := by
  intro k
  induction k with
  | zero => simp
  | succ k ih =>
    intro hk
    have hk' : k < w.length := by omega
    rw [sum_take_succ_getD w k hk', sum_take_succ_getD l k (by omega)]
    have h1 := ih (by omega)
    have h2 := hpt k hk'
    push_cast
    push_cast at h1
    omega

theorem cumsum_getLast {l : List Int} (h : l ≠ []) : (cumsum l).getLast? = some l.sum := by
  have hpos : 0 < l.length := List.length_pos.mpr h
  rw [List.getLast?_eq_getElem?, cumsum_length]
  have h1 : l.length - 1 < l.length := by omega
  unfold cumsum
  rw [List.getElem?_map]
  simp only [List.getElem?_range, h1, if_pos]
  have : l.length - 1 + 1 = l.length := by omega
  rw [Option.map_some']
  rw [this, List.take_length]

theorem cumsum_step {l : List Int} {i : Nat} (h : i + 1 < l.length) :
    (cumsum l).getD (i + 1) 0 = (cumsum l).getD i 0 + l.getD (i + 1) 0 := by
  rw [cumsum_getD (by omega : i < l.length), cumsum_getD h, sum_take_succ_getD l (i + 1) h]

theorem flag_getD_01 (cs : List Cell) (p : Cell → Bool) (j : Nat) :
    (cs.map (fun c => if p c then (1 : Int) else 0)).getD j 0 = 0
      ∨ (cs.map (fun c => if p c then (1 : Int) else 0)).getD j 0 = 1 := by
  rw [List.getD_eq_getElem?_getD, List.getElem?_map]
  cases hq : cs[j]?
  · simp
  · simp only [Option.map_some', Option.getD_some]
    split
    · exact Or.inr rfl
    · exact Or.inl rfl

theorem winFlags_getD_01 (f : Frame) (j : Nat) :
    (winFlags f).getD j 0 = 0 ∨ (winFlags f).getD j 0 = 1 :=
  flag_getD_01 _ _ j

theorem lossFlags_getD_01 (f : Frame) (j : Nat) :
    (lossFlags f).getD j 0 = 0 ∨ (lossFlags f).getD j 0 = 1 :=
  flag_getD_01 _ _ j

theorem flags_pointwise {f : Frame}
    (hWL : ∀ x ∈ f.cells "game_result", x = Cell.str "W" ∨ x = Cell.str "L")
    (j : Nat) (hj : j < (f.cells "game_result").length) :
    (winFlags f).getD j 0 + (lossFlags f).getD j 0 = 1 := by
  unfold winFlags lossFlags
  rw [List.getD_eq_getElem?_getD, List.getElem?_map,
    List.getD_eq_getElem?_getD, List.getElem?_map]
  rw [List.getElem?_eq_getElem hj]
  have hx := hWL _ (List.getElem_mem hj)
  rcases hx with hx | hx <;> rw [hx] <;> simp

theorem flags_length (f : Frame) :
    (winFlags f).length = (f.cells "game_result").length
      ∧ (lossFlags f).length = (f.cells "game_result").length := by
  unfold winFlags lossFlags
  simp

theorem totals_eq_length {f : Frame} (hmem : "game_result" ∈ f.cols)
    (hWL : ∀ x ∈ f.cells "game_result", x = Cell.str "W" ∨ x = Cell.str "L") :
    totalWins f + totalLosses f = (f.rows.length : Int) := by
  have hl := flags_length f
  have hwl : (winFlags f).length = (lossFlags f).length := by rw [hl.1, hl.2]
  have := take_sum_add (w := winFlags f) (l := lossFlags f) hwl
    (fun j hj => flags_pointwise hWL j (by rw [← hl.1]; exact hj))
    (winFlags f).length le_rfl
  rw [List.take_length] at this
  rw [hwl] at this
  rw [List.take_length] at this
  unfold totalWins totalLosses
  rw [this, hl.2, cells_length hmem]

/-! ### Inversion and construction lemmas for the page rendering -/

theorem filterEq_eq_of_firstIdx {f : Frame} {c : String} {i : Nat}
    (hi : firstIdx c f.cols = some i) (v : Cell) :
    f.filterEq c v = Except.ok { f with rows := f.rows.filter (fun r => r.getD i Cell.null == v) } := by
  unfold Frame.filterEq
  rw [hi]

theorem sortBy_eq_of_firstIdx {f : Frame} {c : String} {i : Nat}
    (hi : firstIdx c f.cols = some i) (desc : Bool) :
    f.sortBy c desc = Except.ok { f with rows := sortRows (fun r r' =>
      (if desc then keyGE else keyLE) (r.getD i Cell.null) (r'.getD i Cell.null)) f.rows } := by
  unfold Frame.sortBy
  rw [hi]

theorem cells_nil {f : Frame} (h : f.rows = []) (c : String) : f.cells c = [] := by
  unfold Frame.cells
  cases hi : firstIdx c f.cols
  · rfl
  · rw [h]
    rfl

theorem chartKey_of_empty {f : Frame} (h : f.rows = []) : chartKey f = "game_date" := by
  unfold chartKey
  rw [cells_nil h]
  simp

theorem load_type_mem {t df : Frame} (h : load (some t) = Except.ok df) :
    "type" ∈ df.cols := by
  obtain ⟨d3, hadd, hnorm⟩ := load_ok_spec h
  obtain ⟨i, hi, hcase⟩ := addTypeCol_ok_spec hadd
  obtain ⟨k, hk, hcols, _⟩ := normResult_ok_spec hnorm
  rw [hcols]
  rcases hcase with ⟨j, hj, hc3, _⟩ | ⟨hj, hc3, _⟩
  · rw [hc3]
    exact mem_of_firstIdx_some hj
  · rw [hc3]
    exact List.mem_append.mpr (Or.inr (by simp))

theorem tableView_ok_spec {v tbl : Frame} (h : tableView v = Except.ok tbl) :
    ∃ proj sorted, v.select tableCols = Except.ok proj
      ∧ proj.sortBy (chartKey v) true = Except.ok sorted
      ∧ tbl.cols = sorted.cols ∧ tbl.rows = sorted.rows.take 50 := by
  unfold tableView at h
  split at h
  · exact Except.noConfusion h
  next proj hproj =>
    split at h
    · exact Except.noConfusion h
    next sorted hsorted =>
      injection h with h2
      subst h2
      exact ⟨proj, sorted, hproj, hsorted, rfl, rfl⟩

theorem pipelineView_ok_spec {input : Option Frame} {y : Int} {tm g : String} {v : Frame}
    (h : pipelineView input y tm g = Except.ok v) :
    ∃ df, load input = Except.ok df ∧ buildView df y tm g = Except.ok v := by
  unfold pipelineView at h
  split at h
  · exact Except.noConfusion h
  next df hdf => exact ⟨df, hdf, h⟩

theorem renderPage_dashboard_spec {input : Option Frame} {y : Int} {tm g : String}
    {cw cl : List Int} {tw tl : Int} {rt : Option ℚ} {tb : Frame}
    (h : renderPage input y tm g = Except.ok (Render.dashboard cw cl tw tl rt tb)) :
    ∃ v, pipelineView input y tm g = Except.ok v ∧ v.rows.isEmpty = false
      ∧ tableView v = Except.ok tb
      ∧ cw = cumsum (winFlags v) ∧ cl = cumsum (lossFlags v)
      ∧ tw = totalWins v ∧ tl = totalLosses v
      ∧ rt = winRateOf (totalWins v) (totalLosses v) := by
  unfold renderPage at h
  split at h
  · exact Except.noConfusion h
  next v hv =>
    split at h
    · injection h with h2
      exact Render.noConfusion h2
    next hemp =>
      split at h
      · exact Except.noConfusion h
      next tb2 htb =>
        injection h with h2
        injection h2 with hcw hcl htw htl hrt htb2
        subst hcw hcl htw htl hrt htb2
        exact ⟨v, hv, Bool.not_eq_true _ ▸ eq_false_of_ne_true hemp, htb, rfl, rfl, rfl, rfl, rfl⟩

theorem renderPage_ok_of_dashboard {input : Option Frame} {y : Int} {tm g : String}
    (h : (pageOf input y tm g).isDashboard = true) :
    renderPage input y tm g = Except.ok (pageOf input y tm g) := by
  unfold pageOf at h ⊢
  cases hr : renderPage input y tm g with
  | ok r => rfl
  | error e =>
    rw [hr] at h
    exact absurd h (by simp [Render.isDashboard])

theorem dashboard_view_spec {input : Option Frame} {y : Int} {tm g : String}
    (h : (pageOf input y tm g).isDashboard = true) :
    pipelineView input y tm g = Except.ok (viewOf input y tm g)
    ∧ (viewOf input y tm g).rows.isEmpty = false
    ∧ tableView (viewOf input y tm g) = Except.ok ((pageOf input y tm g).tbl)
    ∧ (pageOf input y tm g).cumW = cumsum (winFlags (viewOf input y tm g))
    ∧ (pageOf input y tm g).cumL = cumsum (lossFlags (viewOf input y tm g))
    ∧ (pageOf input y tm g).totW = totalWins (viewOf input y tm g)
    ∧ (pageOf input y tm g).totL = totalLosses (viewOf input y tm g)
    ∧ (pageOf input y tm g).rate
        = winRateOf (totalWins (viewOf input y tm g)) (totalLosses (viewOf input y tm g)) := by
  have hok := renderPage_ok_of_dashboard h
  cases hp : pageOf input y tm g with
  | noData =>
    rw [hp] at h
    exact absurd h (by simp [Render.isDashboard])
  | dashboard cw cl tw tl rt tb =>
    rw [hp] at hok
    obtain ⟨v, hv, hemp, htb, hcw, hcl, htw, htl, hrt⟩ := renderPage_dashboard_spec hok
    have hveq : viewOf input y tm g = v := by
      unfold viewOf
      rw [hv]
    rw [hveq]
    subst hcw hcl htw htl hrt
    exact ⟨hv, hemp, htb, rfl, rfl, rfl, rfl, rfl⟩

theorem viewOf_WL {input : Option Frame} {y : Int} {tm g : String} {v : Frame}
    (h : pipelineView input y tm g = Except.ok v) :
    "game_result" ∈ v.cols
      ∧ (∀ x ∈ v.cells "game_result", x = Cell.str "W" ∨ x = Cell.str "L") := by
  obtain ⟨df, hdf, hbv⟩ := pipelineView_ok_spec h
  cases input with
  | none => simp [load] at hdf
  | some t =>
    obtain ⟨hcols, hmemrows⟩ := buildView_ok_basic hbv
    constructor
    · rw [hcols]
      exact load_gr_mem hdf
    · intro x hx
      exact load_result_WL hdf x (cells_mem_of_rows_mem hcols hmemrows x hx)

/-- The chart sort of `buildView` leaves the view sorted ascending (nulls last)
by the key that `chartKey` recomputes on the view itself. -/
theorem buildView_ok_sorted {df v : Frame} {y : Int} {tm g : String}
    (h : buildView df y tm g = Except.ok v) :
    ∃ i, firstIdx (chartKey v) v.cols = some i
      ∧ v.rows.Pairwise (fun r r' => keyLE (r.getD i Cell.null) (r'.getD i Cell.null) = true) := by
  obtain ⟨s1, s2, s3, hs1, hs2, hs3, hsort⟩ := buildView_ok_spec h
  obtain ⟨i, hi, hcols, hrows⟩ := sortBy_ok_spec hsort
  have hperm : List.Perm v.rows s3.rows := by
    rw [hrows]
    exact sortRows_perm _ _
  have hck : chartKey v = chartKey s3 := chartKey_eq_of_perm hcols hperm
  refine ⟨i, ?_, ?_⟩
  · rw [hck, hcols]
    exact hi
  · rw [hrows]
    have hred : (fun r r' : List Cell =>
        (if (false : Bool) then keyGE else keyLE) (r.getD i Cell.null) (r'.getD i Cell.null))
        = fun r r' : List Cell => keyLE (r.getD i Cell.null) (r'.getD i Cell.null) := rfl
    rw [hred]
    exact pairwise_sortRows
      (fun a b => keyLE_total (a.getD i Cell.null) (b.getD i Cell.null))
      (fun a b c => keyLE_trans (a.getD i Cell.null) (b.getD i Cell.null) (c.getD i Cell.null))
      s3.rows

/-! ### Forward construction of the pipeline -/

theorem buildView_eq_of_stages {df s1 s2 s3 v : Frame} {y : Int} {tm g : String}
    (h1 : df.filterEq "season" (Cell.int y) = Except.ok s1)
    (h2 : (if g = "Ambos" then Except.ok s1 else s1.filterEq "type" (Cell.str g)) = Except.ok s2)
    (h3 : s2.filterEq "team" (Cell.str tm) = Except.ok s3)
    (h4 : s3.sortBy (chartKey s3) false = Except.ok v) :
    buildView df y tm g = Except.ok v := by
  unfold buildView
  split
  next he => rw [h1] at he; exact Except.noConfusion he
  next s1' he =>
    rw [h1] at he
    injection he with he2
    subst he2
    split
    next he => rw [h2] at he; exact Except.noConfusion he
    next s2' he =>
      rw [h2] at he
      injection he with he2
      subst he2
      split
      next he => rw [h3] at he; exact Except.noConfusion he
      next s3' he =>
        rw [h3] at he
        injection he with he2
        subst he2
        exact h4

theorem pipelineView_eq_of {input : Option Frame} {df v : Frame} {y : Int} {tm g : String}
    (hdf : load input = Except.ok df) (hbv : buildView df y tm g = Except.ok v) :
    pipelineView input y tm g = Except.ok v := by
  unfold pipelineView
  split
  next he => rw [hdf] at he; exact Except.noConfusion he
  next df' he =>
    rw [hdf] at he
    injection he with he2
    subst he2
    exact hbv

theorem renderPage_noData_of {input : Option Frame} {v : Frame} {y : Int} {tm g : String}
    (hv : pipelineView input y tm g = Except.ok v) (hemp : v.rows.isEmpty = true) :
    renderPage input y tm g = Except.ok Render.noData := by
  unfold renderPage
  split
  next he => rw [hv] at he; exact Except.noConfusion he
  next v' he =>
    rw [hv] at he
    injection he with he2
    subst he2
    rw [if_pos hemp]

/-- A selection that matches no row of the dataset filters down to the empty
view and sorts it (by `game_date`) without error. -/
theorem buildView_noData {df : Frame} {y : Int} {tm g : String}
    (hs : "season" ∈ df.cols) (hty : "type" ∈ df.cols) (htm : "team" ∈ df.cols)
    (hgd : "game_date" ∈ df.cols)
    (hno : ∀ r ∈ df.rows, matchesSel df r y tm g = false) :
    ∃ v, buildView df y tm g = Except.ok v ∧ v.rows = [] := by
  obtain ⟨i1, hi1⟩ := firstIdx_isSome_of_mem hs
  obtain ⟨i3, hi3⟩ := firstIdx_isSome_of_mem htm
  have h1 := filterEq_eq_of_firstIdx hi1 (Cell.int y)
  -- the frame after the season filter
  have h2ex : ∃ s2, (if g = "Ambos"
        then Except.ok { df with rows := df.rows.filter (fun r => r.getD i1 Cell.null == Cell.int y) }
        else Frame.filterEq { df with rows := df.rows.filter (fun r => r.getD i1 Cell.null == Cell.int y) }
          "type" (Cell.str g)) = Except.ok s2
      ∧ s2.cols = df.cols
      ∧ ∀ r ∈ s2.rows, r ∈ df.rows
          ∧ (df.getCell r "season" == Cell.int y) = true
          ∧ (g == "Ambos" || df.getCell r "type" == Cell.str g) = true := by
    by_cases hg : g = "Ambos"
    · refine ⟨Frame.mk df.cols (df.rows.filter (fun r => r.getD i1 Cell.null == Cell.int y)),
        by rw [if_pos hg], rfl, ?_⟩
      intro r hr
      have hr' := List.mem_filter.mp hr
      refine ⟨hr'.1, ?_, ?_⟩
      · rw [getCell_eq_of_firstIdx hi1]
        exact hr'.2
      · subst hg
        simp
    · obtain ⟨i2, hi2⟩ := firstIdx_isSome_of_mem hty
      have hi2' : firstIdx "type"
          (Frame.mk df.cols (df.rows.filter (fun r => r.getD i1 Cell.null == Cell.int y))).cols
          = some i2 := hi2
      refine ⟨Frame.mk df.cols ((df.rows.filter (fun r => r.getD i1 Cell.null == Cell.int y)).filter
          (fun r => r.getD i2 Cell.null == Cell.str g)),
        by rw [if_neg hg]; exact filterEq_eq_of_firstIdx hi2' (Cell.str g), rfl, ?_⟩
      intro r hr
      have hr' := List.mem_filter.mp hr
      have hr'' := List.mem_filter.mp hr'.1
      refine ⟨hr''.1, ?_, ?_⟩
      · rw [getCell_eq_of_firstIdx hi1]
        exact hr''.2
      · rw [getCell_eq_of_firstIdx hi2, hr'.2, Bool.or_true]
  obtain ⟨s2, h2, hc2, hm2⟩ := h2ex
  have hi3' : firstIdx "team" s2.cols = some i3 := by rw [hc2]; exact hi3
  have h3 := filterEq_eq_of_firstIdx hi3' (Cell.str tm)
  -- the team-filtered frame is empty
  have hempty : (s2.rows.filter (fun r => r.getD i3 Cell.null == Cell.str tm)) = [] := by
    apply List.eq_nil_iff_forall_not_mem.mpr
    intro r hr
    have hr' := List.mem_filter.mp hr
    obtain ⟨hmem, hsea, hgty⟩ := hm2 r hr'.1
    have htmv : (df.getCell r "team" == Cell.str tm) = true := by
      rw [getCell_eq_of_firstIdx hi3]
      exact hr'.2
    have : matchesSel df r y tm g = true := by
      unfold matchesSel
      rw [hsea, hgty, htmv]
      rfl
    rw [hno r hmem] at this
    exact Bool.noConfusion this
  -- the empty frame sorts by game_date without error
  have hck : chartKey (Frame.mk s2.cols
      (s2.rows.filter (fun r => r.getD i3 Cell.null == Cell.str tm))) = "game_date" :=
    chartKey_of_empty hempty
  obtain ⟨i4, hi4⟩ := firstIdx_isSome_of_mem (show "game_date" ∈ s2.cols by rw [hc2]; exact hgd)
  have h4 := sortBy_eq_of_firstIdx (f := Frame.mk s2.cols
      (s2.rows.filter (fun r => r.getD i3 Cell.null == Cell.str tm))) (c := "game_date")
      (i := i4) hi4 false
  refine ⟨_, buildView_eq_of_stages h1 h2 h3 (by rw [hck]; exact h4), ?_⟩
  rw [hempty]
  rfl

/-! ### The claims -/

/-- C1: after normalization (`load`), every retained row has a non-null
`season`, a non-null `team`, and a `game_result` that is exactly `"W"` or
`"L"` (the stored value is the trimmed, upper-cased original, so rows whose
result normalizes to anything else have been dropped).  The two membership
hypotheses only say that the source had season and team columns at all. -/
theorem c1_normalized_rows (t : Frame)
    (hok : isOkE (load (some t)) = true)
    (hs : "season" ∈ (dfOf (some t)).cols) (htm : "team" ∈ (dfOf (some t)).cols) :
    ∀ r ∈ (dfOf (some t)).rows,
      (dfOf (some t)).getCell r "season" ≠ Cell.null
      ∧ (dfOf (some t)).getCell r "team" ≠ Cell.null
      ∧ ((dfOf (some t)).getCell r "game_result" = Cell.str "W"
          ∨ (dfOf (some t)).getCell r "game_result" = Cell.str "L") := by
  obtain ⟨df, hdf⟩ := (isOkE_iff _).mp hok
  have hdfo : dfOf (some t) = df := by
    unfold dfOf
    rw [hdf]
  rw [hdfo] at hs htm ⊢
  intro r hr
  refine ⟨load_nonnull hdf (Or.inl rfl) hs r hr,
    load_nonnull hdf (Or.inr rfl) htm r hr, ?_⟩
  obtain ⟨i, hi⟩ := firstIdx_isSome_of_mem (load_gr_mem hdf)
  rw [getCell_eq_of_firstIdx hi]
  apply load_result_WL hdf
  rw [cells_eq_of_firstIdx hi]
  exact List.mem_map.mpr ⟨r, hr, rfl⟩

/-- Witness for C1 at the concrete three-game table. -/
theorem c1_witness :
    ((dfOf (some tSmall)).getCell ((dfOf (some tSmall)).rows.getD 0 []) "season" ≠ Cell.null
      ∧ (dfOf (some tSmall)).getCell ((dfOf (some tSmall)).rows.getD 0 []) "team" ≠ Cell.null
      ∧ ((dfOf (some tSmall)).getCell ((dfOf (some tSmall)).rows.getD 0 []) "game_result" = Cell.str "W"
        ∨ (dfOf (some tSmall)).getCell ((dfOf (some tSmall)).rows.getD 0 []) "game_result" = Cell.str "L")) :=
  c1_normalized_rows tSmall (by decide) (by decide) (by decide) _ (by decide)

/-- C2: in any view the pipeline produces, the running counts satisfy
`cumulative_wins[i] + cumulative_losses[i] = i + 1` at every index: each of
the first `i+1` rows incremented exactly one of the two counters.  (For a
selection on which the pipeline fails, the view defaults to the empty frame
and the statement is vacuous.) -/
theorem c2_cumulative_sum (input : Option Frame) (y : Int) (tm g : String) :
    ∀ i < (viewOf input y tm g).rows.length,
      (cumsum (winFlags (viewOf input y tm g))).getD i 0
        + (cumsum (lossFlags (viewOf input y tm g))).getD i 0 = (i : Int) + 1 := by
  intro i hi
  cases hpv : pipelineView input y tm g with
  | error e =>
    have hveq : viewOf input y tm g = Frame.mk [] [] := by
      unfold viewOf
      rw [hpv]
    rw [hveq] at hi
    simp at hi
  | ok v =>
    have hveq : viewOf input y tm g = v := by
      unfold viewOf
      rw [hpv]
    rw [hveq] at hi ⊢
    obtain ⟨hgr, hWL⟩ := viewOf_WL hpv
    have hclen : (v.cells "game_result").length = v.rows.length := cells_length hgr
    have hfl := flags_length v
    have hpt : ∀ j, j < (winFlags v).length →
        (winFlags v).getD j 0 + (lossFlags v).getD j 0 = 1 :=
      fun j hj => flags_pointwise hWL j (by rw [← hfl.1]; exact hj)
    have hwlen : (winFlags v).length = (lossFlags v).length := by rw [hfl.1, hfl.2]
    have hiw : i < (winFlags v).length := by
      rw [hfl.1, hclen]
      exact hi
    rw [cumsum_getD hiw, cumsum_getD (by rw [← hwlen]; exact hiw)]
    have hsum := take_sum_add hwlen hpt (i + 1) (by omega)
    rw [hsum]
    push_cast
    ring

/-- Witness for C2 at the fourteen-game table. -/
theorem c2_witness :
    (cumsum (winFlags (viewOf (some tBig) 2015 "BOS" "Ambos"))).getD 2 0
      + (cumsum (lossFlags (viewOf (some tBig) 2015 "BOS" "Ambos"))).getD 2 0 = (2 : Int) + 1 :=
  c2_cumulative_sum (some tBig) 2015 "BOS" "Ambos" 2 (by decide)

/-- C8: a selection that matches no row of the loaded dataset renders the
"no data" notice: the pipeline returns `Except.ok Render.noData`, raising no
error.  The membership hypotheses record that the dataset has the season,
team and date columns (true of the real source file); `type` always exists
after `load`. -/
theorem c8_no_data_path (input : Option Frame) (y : Int) (tm g : String)
    (hok : isOkE (load input) = true)
    (hs : "season" ∈ (dfOf input).cols)
    (htm : "team" ∈ (dfOf input).cols)
    (hgd : "game_date" ∈ (dfOf input).cols)
    (hno : ∀ r ∈ (dfOf input).rows, matchesSel (dfOf input) r y tm g = false) :
    renderPage input y tm g = Except.ok Render.noData := by
  obtain ⟨df, hdf⟩ := (isOkE_iff _).mp hok
  have hdfo : dfOf input = df := by
    unfold dfOf
    rw [hdf]
  rw [hdfo] at hs htm hgd hno
  cases input with
  | none => simp [load] at hdf
  | some t =>
    have hty : "type" ∈ df.cols := load_type_mem hdf
    obtain ⟨v, hbv, hvrows⟩ := buildView_noData hs hty htm hgd hno
    exact renderPage_noData_of (pipelineView_eq_of hdf hbv) (by rw [hvrows]; rfl)

/-- Witness for C8: a team absent from the table yields the notice. -/
theorem c8_witness : renderPage (some tSmall) 2015 "LAL" "Ambos" = Except.ok Render.noData :=
  c8_no_data_path (some tSmall) 2015 "LAL" "Ambos" (by decide) (by decide) (by decide)
    (by decide) (by decide)

/-- C10: in every rendered dashboard the cumulative sequences are
non-decreasing with steps of exactly 0 or 1, and their last elements are the
`total_wins` / `total_losses` metrics of lines 134-135. -/
theorem c10_monotone_totals (input : Option Frame) (y : Int) (tm g : String)
    (h : (pageOf input y tm g).isDashboard = true) :
    (∀ i, i + 1 < (pageOf input y tm g).cumW.length →
        (pageOf input y tm g).cumW.getD i 0 ≤ (pageOf input y tm g).cumW.getD (i + 1) 0
        ∧ (pageOf input y tm g).cumW.getD (i + 1) 0 ≤ (pageOf input y tm g).cumW.getD i 0 + 1)
    ∧ (∀ i, i + 1 < (pageOf input y tm g).cumL.length →
        (pageOf input y tm g).cumL.getD i 0 ≤ (pageOf input y tm g).cumL.getD (i + 1) 0
        ∧ (pageOf input y tm g).cumL.getD (i + 1) 0 ≤ (pageOf input y tm g).cumL.getD i 0 + 1)
    ∧ (pageOf input y tm g).cumW.getLast? = some ((pageOf input y tm g).totW)
    ∧ (pageOf input y tm g).cumL.getLast? = some ((pageOf input y tm g).totL) := by
  obtain ⟨hpv, hemp, htb, hcw, hcl, htw, htl, hrt⟩ := dashboard_view_spec h
  rw [hcw, hcl, htw, htl]
  have hgr := (viewOf_WL hpv).1
  have hrows_ne : (viewOf input y tm g).rows ≠ [] := by
    intro hnil
    rw [hnil] at hemp
    exact Bool.noConfusion hemp
  have hwlen : (winFlags (viewOf input y tm g)).length = (viewOf input y tm g).rows.length := by
    rw [(flags_length (viewOf input y tm g)).1, cells_length hgr]
  have hllen : (lossFlags (viewOf input y tm g)).length = (viewOf input y tm g).rows.length := by
    rw [(flags_length (viewOf input y tm g)).2, cells_length hgr]
  have hwne : winFlags (viewOf input y tm g) ≠ [] := by
    intro hnil
    apply hrows_ne
    apply List.length_eq_zero.mp
    rw [← hwlen, hnil]
    rfl
  have hlne : lossFlags (viewOf input y tm g) ≠ [] := by
    intro hnil
    apply hrows_ne
    apply List.length_eq_zero.mp
    rw [← hllen, hnil]
    rfl
  refine ⟨?_, ?_, ?_, ?_⟩
  · intro i hlen
    rw [cumsum_length] at hlen
    rw [cumsum_step hlen]
    rcases winFlags_getD_01 (viewOf input y tm g) (i + 1) with h0 | h0 <;> rw [h0] <;>
      exact ⟨by omega, by omega⟩
  · intro i hlen
    rw [cumsum_length] at hlen
    rw [cumsum_step hlen]
    rcases lossFlags_getD_01 (viewOf input y tm g) (i + 1) with h0 | h0 <;> rw [h0] <;>
      exact ⟨by omega, by omega⟩
  · rw [cumsum_getLast hwne]
    rfl
  · rw [cumsum_getLast hlne]
    rfl

/-- Witness for C10 at the fourteen-game table. -/
theorem c10_witness :
    (pageOf (some tBig) 2015 "BOS" "Ambos").cumW.getLast?
      = some ((pageOf (some tBig) 2015 "BOS" "Ambos").totW) :=
  (c10_monotone_totals (some tBig) 2015 "BOS" "Ambos" (by decide)).2.2.1

/-- C7: in every rendered dashboard the games total is positive and the
win-rate metric equals `wins / games * 100` exactly; the guard of lines
155-156 omits the metric precisely when the total is zero. -/
theorem c7_win_rate (input : Option Frame) (y : Int) (tm g : String)
    (h : (pageOf input y tm g).isDashboard = true) :
    0 < (pageOf input y tm g).totW + (pageOf input y tm g).totL
    ∧ (pageOf input y tm g).rate
        = some ((((pageOf input y tm g).totW : ℚ)
            / (((pageOf input y tm g).totW : ℚ) + ((pageOf input y tm g).totL : ℚ))) * 100)
    ∧ (∀ tw tl : Int, tw + tl = 0 → winRateOf tw tl = none)
    ∧ (∀ tw tl : Int, 0 < tw + tl →
        winRateOf tw tl = some (((tw : ℚ) / ((tw : ℚ) + (tl : ℚ))) * 100)) := by
  obtain ⟨hpv, hemp, htb, hcw, hcl, htw, htl, hrt⟩ := dashboard_view_spec h
  obtain ⟨hgr, hWL⟩ := viewOf_WL hpv
  have htot := totals_eq_length hgr hWL
  have hrows_ne : (viewOf input y tm g).rows ≠ [] := by
    intro hnil
    rw [hnil] at hemp
    exact Bool.noConfusion hemp
  have hpos : 0 < totalWins (viewOf input y tm g) + totalLosses (viewOf input y tm g) := by
    rw [htot]
    exact_mod_cast List.length_pos.mpr hrows_ne
  refine ⟨?_, ?_, ?_, ?_⟩
  · rw [htw, htl]
    exact hpos
  · rw [hrt, htw, htl]
    unfold winRateOf
    rw [if_pos hpos]
  · intro tw tl h0
    unfold winRateOf
    rw [if_neg (by omega)]
  · intro tw tl h0
    unfold winRateOf
    rw [if_pos h0]

/-- Witness for C7: ten wins and four losses give the rate `500/7` %, which
displays (to two decimals) as `71.43%`. -/
theorem c7_witness :
    (pageOf (some tBig) 2015 "BOS" "Ambos").totW = 10
    ∧ (pageOf (some tBig) 2015 "BOS" "Ambos").totL = 4
    ∧ (pageOf (some tBig) 2015 "BOS" "Ambos").rate = some ((500 : ℚ) / 7)
    ∧ ⌊((500 : ℚ) / 7) * 100 + 1 / 2⌋ = 7143 := by
  have h := c7_win_rate (some tBig) 2015 "BOS" "Ambos" (by decide)
  have htw : (pageOf (some tBig) 2015 "BOS" "Ambos").totW = 10 := by decide
  have htl : (pageOf (some tBig) 2015 "BOS" "Ambos").totL = 4 := by decide
  refine ⟨htw, htl, ?_, by norm_num [Int.floor_eq_iff]⟩
  rw [h.2.1, htw, htl]
  norm_num

/-- C9: in every rendered dashboard the table is the fixed nine-column
projection, holds at most 50 rows, consists of the first 50 rows of the view
re-sorted descending by the chart key (so of the most recent games: every key
kept dominates every key dropped), and the view itself is sorted ascending by
that same key. -/
theorem c9_table_view (input : Option Frame) (y : Int) (tm g : String)
    (h : (pageOf input y tm g).isDashboard = true) :
    (pageOf input y tm g).tbl.cols = tableCols
    ∧ (pageOf input y tm g).tbl.rows.length ≤ 50
    ∧ (pageOf input y tm g).tbl.rows = (sortedProjOf (viewOf input y tm g)).rows.take 50
    ∧ ((pageOf input y tm g).tbl.cells (chartKey (viewOf input y tm g))).Pairwise
        (fun a b => keyGE a b = true)
    ∧ (∀ a ∈ (pageOf input y tm g).tbl.cells (chartKey (viewOf input y tm g)),
        ∀ b ∈ ((sortedProjOf (viewOf input y tm g)).cells (chartKey (viewOf input y tm g))).drop 50,
          keyGE a b = true)
    ∧ ((viewOf input y tm g).cells (chartKey (viewOf input y tm g))).Pairwise
        (fun a b => keyLE a b = true) := by
  obtain ⟨hpv, hemp, htb, hcw, hcl, htw, htl, hrt⟩ := dashboard_view_spec h
  obtain ⟨proj, sorted, hsel, hsort, htcols, htrows⟩ := tableView_ok_spec htb
  obtain ⟨hall, hpcols, hprows⟩ := select_ok_spec hsel
  obtain ⟨i, hi, hscols, hsrows⟩ := sortBy_ok_spec hsort
  have hproj : projOf (viewOf input y tm g) = proj := by
    unfold projOf
    rw [hsel]
  have hsorted : sortedProjOf (viewOf input y tm g) = sorted := by
    unfold sortedProjOf
    rw [hproj, hsort]
  -- the descending comparison of the table sort
  have hredGE : (fun r r' : List Cell =>
      (if (true : Bool) then keyGE else keyLE) (r.getD i Cell.null) (r'.getD i Cell.null))
      = fun r r' : List Cell => keyGE (r.getD i Cell.null) (r'.getD i Cell.null) := rfl
  have hsortedPW : sorted.rows.Pairwise
      (fun r r' => keyGE (r.getD i Cell.null) (r'.getD i Cell.null) = true) := by
    rw [hsrows, hredGE]
    exact pairwise_sortRows
      (fun a b => keyGE_total (a.getD i Cell.null) (b.getD i Cell.null))
      (fun a b c => keyGE_trans (a.getD i Cell.null) (b.getD i Cell.null) (c.getD i Cell.null))
      proj.rows
  have hitbl : firstIdx (chartKey (viewOf input y tm g)) (pageOf input y tm g).tbl.cols = some i := by
    rw [htcols, hscols]
    exact hi
  have hisorted : firstIdx (chartKey (viewOf input y tm g)) sorted.cols = some i := by
    rw [hscols]
    exact hi
  have htblcells : (pageOf input y tm g).tbl.cells (chartKey (viewOf input y tm g))
      = ((sorted.cells (chartKey (viewOf input y tm g))).take 50) := by
    rw [cells_eq_of_firstIdx hitbl, cells_eq_of_firstIdx hisorted, htrows, List.map_take]
  have hsortedcellsPW : (sorted.cells (chartKey (viewOf input y tm g))).Pairwise
      (fun a b => keyGE a b = true) := by
    rw [cells_eq_of_firstIdx hisorted]
    exact (List.pairwise_map).mpr hsortedPW
  refine ⟨by rw [htcols, hscols, hpcols], ?_, ?_, ?_, ?_, ?_⟩
  · rw [htrows]
    exact List.length_take_le 50 sorted.rows
  · rw [hsorted]
    exact htrows
  · rw [htblcells]
    exact hsortedcellsPW.sublist (List.take_sublist 50 _)
  · intro a ha b hb
    rw [hsorted] at hb
    rw [htblcells] at ha
    have hsplit := hsortedcellsPW
    rw [← List.take_append_drop 50 (sorted.cells (chartKey (viewOf input y tm g))),
      List.pairwise_append] at hsplit
    exact hsplit.2.2 a ha b hb
  · obtain ⟨df, hdf, hbv⟩ := pipelineView_ok_spec hpv
    obtain ⟨i', hi', hvPW⟩ := buildView_ok_sorted hbv
    rw [cells_eq_of_firstIdx hi']
    exact (List.pairwise_map).mpr hvPW

/-- Witness for C9 at the fourteen-game table. -/
theorem c9_witness :
    (pageOf (some tBig) 2015 "BOS" "Ambos").tbl.cols = tableCols
    ∧ (pageOf (some tBig) 2015 "BOS" "Ambos").tbl.rows.length ≤ 50 := by
  have h := c9_table_view (some tBig) 2015 "BOS" "Ambos" (by decide)
  exact ⟨h.1, h.2.1⟩

/-! ### Row-width (CSV well-formedness) lemmas used for the `type` derivation -/

theorem firstIdx_append_self {c : String} :
    ∀ {l : List String}, firstIdx c l = none → firstIdx c (l ++ [c]) = some l.length := by
  intro l
  induction l with
  | nil => intro _; simp [firstIdx]
  | cons a l ih =>
    intro h
    by_cases ha : a = c
    · simp [firstIdx, ha] at h
    · simp only [firstIdx, ha, if_false, Option.map_eq_none'] at h
      rw [show (a :: l) ++ [c] = a :: (l ++ [c]) from rfl]
      simp only [firstIdx, ha, if_false]
      rw [ih h]
      rfl

theorem getD_concat_length (l : List Cell) (x : Cell) :
    (l ++ [x]).getD l.length Cell.null = x := by
  simp [List.getD_eq_getElem?_getD, List.getElem?_concat_length]

theorem getD_set_self_of_lt {l : List Cell} {i : Nat} (h : i < l.length) (x : Cell) :
    (l.set i x).getD i Cell.null = x := by
  simp [List.getD_eq_getElem?_getD, List.getElem?_set_eq_of_lt x h]

theorem wf_mapCol {f : Frame} {c : String} {g : Cell → Cell}
    (hwf : ∀ r ∈ f.rows, r.length = f.cols.length) :
    ∀ r ∈ (f.mapCol c g).rows, r.length = (f.mapCol c g).cols.length := by
  unfold Frame.mapCol
  cases hi : firstIdx c f.cols
  · exact hwf
  · intro r hr
    simp only [List.mem_map] at hr
    obtain ⟨r0, hr0, rfl⟩ := hr
    simp [List.length_set, hwf r0 hr0]

theorem wf_renamed {t : Frame} (hwf : ∀ r ∈ t.rows, r.length = t.cols.length) :
    ∀ r ∈ (Frame.mk (t.cols.map canonName) t.rows).rows,
      r.length = (Frame.mk (t.cols.map canonName) t.rows).cols.length := by
  intro r hr
  simp only [List.length_map]
  exact hwf r hr

theorem wf_preframe {t : Frame} (hwf : ∀ r ∈ t.rows, r.length = t.cols.length) :
    ∀ r ∈ (preframe t).rows, r.length = (preframe t).cols.length :=
  wf_mapCol (wf_mapCol (wf_mapCol (wf_mapCol (wf_renamed hwf))))

theorem wf_dropped {t : Frame} (hwf : ∀ r ∈ t.rows, r.length = t.cols.length) :
    ∀ r ∈ (droppedFrame t).rows, r.length = (droppedFrame t).cols.length := by
  intro r hr
  exact wf_preframe hwf r (dropna_rows_subset r hr)

theorem coercePlayoffs_int (c : Cell) : ∃ n : Int, coercePlayoffs c = Cell.int n := by
  cases c with
  | str s =>
    cases h : parseIntStr s with
    | none => exact ⟨0, by simp [coercePlayoffs, h]⟩
    | some n => exact ⟨n, by simp [coercePlayoffs, h]⟩
  | int n => exact ⟨n, rfl⟩
  | date d => exact ⟨0, rfl⟩
  | null => exact ⟨0, rfl⟩

theorem mapCol_result_at {f : Frame} {c : String} {i : Nat} {g : Cell → Cell}
    (hwf : ∀ r ∈ f.rows, r.length = f.cols.length)
    (hi : firstIdx c f.cols = some i) :
    ∀ r ∈ (f.mapCol c g).rows, ∃ c0, r.getD i Cell.null = g c0 := by
  unfold Frame.mapCol
  rw [hi]
  intro r hr
  simp only [List.mem_map] at hr
  obtain ⟨r0, hr0, rfl⟩ := hr
  have hlt : i < r0.length := by
    rw [hwf r0 hr0]
    exact firstIdx_lt_length hi
  exact ⟨r0.getD i Cell.null, getD_set_self_of_lt hlt _⟩

/-- In the coerced frame, the `is_playoffs` cell of every row is what
`coercePlayoffs` produced, hence an integer. -/
theorem dropped_playoffs_int {t : Frame} {ip : Nat}
    (hwf : ∀ r ∈ t.rows, r.length = t.cols.length)
    (hip : firstIdx "is_playoffs" (droppedFrame t).cols = some ip) :
    ∀ r ∈ (droppedFrame t).rows, ∃ n : Int, r.getD ip Cell.null = Cell.int n := by
  intro r hr
  have hr' : r ∈ (preframe t).rows := dropna_rows_subset r hr
  have hinner : firstIdx "is_playoffs"
      ((((Frame.mk (t.cols.map canonName) t.rows).mapCol "season" coerceInt).mapCol
        "seasongame" coerceInt).mapCol "game_date" coerceDate).cols = some ip := by
    have h1 : (droppedFrame t).cols = t.cols.map canonName := droppedFrame_cols t
    rw [h1] at hip
    simpa [mapCol_cols] using hip
  have hwfi : ∀ r0 ∈ ((((Frame.mk (t.cols.map canonName) t.rows).mapCol "season" coerceInt).mapCol
        "seasongame" coerceInt).mapCol "game_date" coerceDate).rows,
      r0.length = ((((Frame.mk (t.cols.map canonName) t.rows).mapCol "season" coerceInt).mapCol
        "seasongame" coerceInt).mapCol "game_date" coerceDate).cols.length :=
    wf_mapCol (wf_mapCol (wf_mapCol (wf_renamed hwf)))
  obtain ⟨c0, hc0⟩ := mapCol_result_at hwfi hinner r hr'
  obtain ⟨n, hn⟩ := coercePlayoffs_int c0
  exact ⟨n, by rw [hc0, hn]⟩

/-- Counterexample to C4 as stated: a regular-season row gets the `type`
value `"Temporada regular"`, the source's literal, which is neither
`"Playoffs"` nor the claimed `"Regular Season"`. -/
theorem c4_counterexample :
    (dfOf (some tReg)).cells "type" = [Cell.str "Temporada regular"]
    ∧ Cell.str "Temporada regular" ≠ Cell.str "Playoffs"
    ∧ Cell.str "Temporada regular" ≠ Cell.str "Regular Season" := by
  refine ⟨by decide, by decide, by decide⟩

/-- C4 (amended): in every loaded dataset the `type` cell is the pure
function `typeStr` of the row's coerced `is_playoffs` cell — `"Playoffs"`
for the integer 1 and the source literal `"Temporada regular"` for every
other value — and that cell is always an integer; a missing or unparseable
raw value coerces to the integer 0.  The width hypothesis states that every
CSV row has one field per header, which `pd.read_csv` guarantees. -/
theorem c4_type_function (t : Frame)
    (hwf : ∀ r ∈ t.rows, r.length = t.cols.length)
    (hok : isOkE (load (some t)) = true) :
    (∀ r ∈ (dfOf (some t)).rows,
      (dfOf (some t)).getCell r "type"
        = Cell.str (typeStr ((dfOf (some t)).getCell r "is_playoffs"))
      ∧ ∃ n : Int, (dfOf (some t)).getCell r "is_playoffs" = Cell.int n)
    ∧ coercePlayoffs Cell.null = Cell.int 0
    ∧ (∀ s, parseIntStr s = none → coercePlayoffs (Cell.str s) = Cell.int 0) := by
  obtain ⟨df, hdf⟩ := (isOkE_iff _).mp hok
  have hdfo : dfOf (some t) = df := by
    unfold dfOf
    rw [hdf]
  rw [hdfo]
  refine ⟨?_, rfl, fun s hs => by simp [coercePlayoffs, hs]⟩
  obtain ⟨d3, hadd, hnorm⟩ := load_ok_spec hdf
  obtain ⟨ip, hip, hcase⟩ := addTypeCol_ok_spec hadd
  obtain ⟨ig, hig, hcols, hrows⟩ := normResult_ok_spec hnorm
  have hwfd := wf_dropped (t := t) hwf
  have hint := dropped_playoffs_int hwf hip
  -- the `type` and `is_playoffs` cells of every row after `addTypeCol`
  have hd3 : ∃ jt, firstIdx "is_playoffs" d3.cols = some ip
      ∧ firstIdx "type" d3.cols = some jt
      ∧ ∀ r3 ∈ d3.rows, (∃ n : Int, r3.getD ip Cell.null = Cell.int n)
          ∧ r3.getD jt Cell.null = Cell.str (typeStr (r3.getD ip Cell.null)) := by
    rcases hcase with ⟨j, hj, hc3, hr3⟩ | ⟨hj, hc3, hr3⟩
    · refine ⟨j, by rw [hc3]; exact hip, by rw [hc3]; exact hj, ?_⟩
      intro r3 hr3m
      rw [hr3] at hr3m
      simp only [List.mem_map] at hr3m
      obtain ⟨r2, hr2, rfl⟩ := hr3m
      have hipne : ip ≠ j := firstIdx_inj hip hj (by decide)
      have hgp : (r2.set j (Cell.str (typeStr (r2.getD ip Cell.null)))).getD ip Cell.null
          = r2.getD ip Cell.null := getD_set_ne r2 ip j _ hipne
      have hjlt : j < r2.length := by
        rw [hwfd r2 hr2]
        exact firstIdx_lt_length hj
      rw [hgp, getD_set_self_of_lt hjlt]
      exact ⟨hint r2 hr2, rfl⟩
    · refine ⟨(droppedFrame t).cols.length,
        by rw [hc3]; exact firstIdx_append hip,
        by rw [hc3]; exact firstIdx_append_self hj, ?_⟩
      intro r3 hr3m
      rw [hr3] at hr3m
      simp only [List.mem_map] at hr3m
      obtain ⟨r2, hr2, rfl⟩ := hr3m
      have hiplt : ip < r2.length := by
        rw [hwfd r2 hr2]
        exact firstIdx_lt_length hip
      have hgp : (r2 ++ [Cell.str (typeStr (r2.getD ip Cell.null))]).getD ip Cell.null
          = r2.getD ip Cell.null := getD_append_left r2 _ ip hiplt
      have hlen : (droppedFrame t).cols.length = r2.length := (hwfd r2 hr2).symm
      rw [hgp, hlen, getD_concat_length]
      exact ⟨hint r2 hr2, rfl⟩
  obtain ⟨jt, hip3, hjt3, hprop⟩ := hd3
  intro r hr
  rw [hrows] at hr
  have hr' := (List.mem_filter.mp hr).1
  simp only [List.mem_map] at hr'
  obtain ⟨r3, hr3m, rfl⟩ := hr'
  have hipdf : firstIdx "is_playoffs" df.cols = some ip := by
    rw [hcols]
    exact hip3
  have hjtdf : firstIdx "type" df.cols = some jt := by
    rw [hcols]
    exact hjt3
  have hipne : ip ≠ ig := firstIdx_inj hip3 hig (by decide)
  have hjtne : jt ≠ ig := firstIdx_inj hjt3 hig (by decide)
  rw [getCell_eq_of_firstIdx hipdf, getCell_eq_of_firstIdx hjtdf,
    getD_set_ne r3 ip ig _ hipne, getD_set_ne r3 jt ig _ hjtne]
  exact ⟨(hprop r3 hr3m).2, (hprop r3 hr3m).1⟩

/-- Witness for C4 (amended) at the one-row regular-season table. -/
theorem c4_witness :
    (dfOf (some tReg)).getCell ((dfOf (some tReg)).rows.getD 0 []) "type"
      = Cell.str (typeStr ((dfOf (some tReg)).getCell ((dfOf (some tReg)).rows.getD 0 []) "is_playoffs")) :=
  (((c4_type_function tReg (by decide) (by decide)).1) _ (by decide)).1

/-- Counterexample to C5 as stated: a source with no season column (under
either name) and no team column still makes `load_data` itself return
normally — the claimed load-time failure does not happen. -/
theorem c5_counterexample :
    ¬("season" ∈ tNoSeason.cols ∨ "year_id" ∈ tNoSeason.cols)
    ∧ ¬("team" ∈ tNoSeason.cols ∨ "team_id" ∈ tNoSeason.cols)
    ∧ isOkE (load (some tNoSeason)) = true := by
  refine ⟨by decide, by decide, by decide⟩

/-- C5 (amended): an unreadable source fails `load` (and the startup); a
source without `game_result` fails `load` itself; a source without a season
or team column loads, but the startup fails immediately afterwards when the
sidebar reads `df["season"]` (line 62) or `df["team"]` (line 67) — so in
every one of the claimed situations the startup fails and no partial
dashboard is shown. -/
theorem c5_startup_failures (t : Frame) :
    isOkE (load none) = false
    ∧ isOkE (runStartup none) = false
    ∧ ("game_result" ∉ t.cols → isOkE (load (some t)) = false)
    ∧ ("season" ∉ t.cols → "year_id" ∉ t.cols → isOkE (runStartup (some t)) = false)
    ∧ ("team" ∉ t.cols → "team_id" ∉ t.cols → isOkE (runStartup (some t)) = false) := by
  have hgrcase : ∀ (h : "game_result" ∉ t.cols), isOkE (load (some t)) = false := by
    intro hgr
    cases hload : load (some t) with
    | error e => rfl
    | ok df => exact absurd (load_mem_of_ok hload).1 hgr
  refine ⟨rfl, rfl, hgrcase, ?_, ?_⟩
  · intro hs hy
    unfold runStartup
    cases hload : load (some t) with
    | error e => rfl
    | ok df =>
      have hnmem : "season" ∉ df.cols := by
        intro hmem
        have hmc : "season" ∈ t.cols.map canonName := by
          rcases load_ok_cols hload with hc | hc
          · rw [hc] at hmem
            exact hmem
          · rw [hc] at hmem
            rcases List.mem_append.mp hmem with hm | hm
            · exact hm
            · simp at hm
        obtain ⟨c0, hc0, hc0e⟩ := List.mem_map.mp hmc
        rcases (canonName_eq_season c0).mp hc0e with rfl | rfl
        · exact hs hc0
        · exact hy hc0
      show isOkE (if df.cols.contains "season" = true
          then (if df.cols.contains "team" = true then Except.ok df
            else Except.error "KeyError: team")
          else Except.error "KeyError: season") = false
      rw [if_neg (show ¬(df.cols.contains "season" = true) from
        fun hc => hnmem (List.mem_of_elem_eq_true hc))]
      rfl
  · intro htm hti
    unfold runStartup
    cases hload : load (some t) with
    | error e => rfl
    | ok df =>
      have hnmem : "team" ∉ df.cols := by
        intro hmem
        have hmc : "team" ∈ t.cols.map canonName := by
          rcases load_ok_cols hload with hc | hc
          · rw [hc] at hmem
            exact hmem
          · rw [hc] at hmem
            rcases List.mem_append.mp hmem with hm | hm
            · exact hm
            · simp at hm
        obtain ⟨c0, hc0, hc0e⟩ := List.mem_map.mp hmc
        rcases (canonName_eq_team c0).mp hc0e with rfl | rfl
        · exact htm hc0
        · exact hti hc0
      show isOkE (if df.cols.contains "season" = true
          then (if df.cols.contains "team" = true then Except.ok df
            else Except.error "KeyError: team")
          else Except.error "KeyError: season") = false
      by_cases hsmem : df.cols.contains "season" = true
      · rw [if_pos hsmem, if_neg (show ¬(df.cols.contains "team" = true) from
          fun hc => hnmem (List.mem_of_elem_eq_true hc))]
        rfl
      · rw [if_neg hsmem]
        rfl

/-- Witness for C5 (amended): the unreadable source and the no-season table. -/
theorem c5_witness :
    isOkE (load none) = false ∧ isOkE (runStartup (some tNoSeason)) = false :=
  ⟨(c5_startup_failures tNoSeason).1,
    (c5_startup_failures tNoSeason).2.2.2.1 (by decide) (by decide)⟩

/-- Counterexample to C6 as stated: a source with the mandatory columns but
without the optional `is_playoffs` column makes `load_data` itself raise
(line 45 reads `df["is_playoffs"]` unconditionally). -/
theorem c6_counterexample :
    "is_playoffs" ∉ tNoPlayoffs.cols
    ∧ ("year_id" ∈ tNoPlayoffs.cols ∧ "team_id" ∈ tNoPlayoffs.cols
        ∧ "game_result" ∈ tNoPlayoffs.cols)
    ∧ isOkE (load (some tNoPlayoffs)) = false := by
  refine ⟨by decide, ⟨by decide, by decide, by decide⟩, by decide⟩

/-- C6 (amended): `load` succeeds exactly when the source has `game_result`
and `is_playoffs` columns — every other optional column (`seasongame`,
`game_date`, `pts`, …) may be absent without an error, but a missing
`is_playoffs` makes the `type` derivation of line 45 raise.  The `Nodup`
hypothesis mirrors pandas (`read_csv` mangles duplicate headers, so renaming
does not create duplicate labels here). -/
theorem c6_load_success (t : Frame) (hnd : (t.cols.map canonName).Nodup) :
    isOkE (load (some t)) = true ↔ ("game_result" ∈ t.cols ∧ "is_playoffs" ∈ t.cols) := by
  constructor
  · intro h
    obtain ⟨df, hdf⟩ := (isOkE_iff _).mp h
    exact load_mem_of_ok hdf
  · intro hmem
    obtain ⟨df, hdf⟩ := load_ok_of_mem hmem.1 hmem.2
    rw [hdf]
    rfl

/-- Witness for C6 (amended): the regular-season table (which has no
`date_game`, no `seasongame`, no `pts`, `opp_id`, `opp_pts`) loads. -/
theorem c6_witness : isOkE (load (some tReg)) = true :=
  (c6_load_success tReg (by decide)).mpr (by decide)
